import Mathlib

/-!
# gerbolyze `svg-flatten` driver (`src/main.cpp`)

A shallow embedding of the command-line driver: the format dispatch, the
`id_match` splitter for group lists, the input-kind detection, the `--size`
validation, the raster envelope synthesis and the staging / clean-up flow of
`main`, followed by theorems about them.

A C++ `std::string` is modelled as a `List Char`; `std::tolower` is taken in
the default "C" locale (the driver never calls `setlocale`), where it maps
`A`..`Z` to `a`..`z` and leaves every other character alone.
-/

set_option maxRecDepth 100000

namespace Gerbolyze

/-- A C++ `std::string`. -/
abbrev Str := List Char

/-! ## Character helpers -/

/-- `std::tolower` in the "C" locale. -/
def tolower (c : Char) : Char :=
  if 'A'.toNat ≤ c.toNat ∧ c.toNat ≤ 'Z'.toNat then Char.ofNat (c.toNat + 32) else c

/-- `transform(s.begin(), s.end(), s.begin(), tolower)`. -/
def lowercase (s : Str) : Str := s.map tolower

/-! ## Output format dispatch (main.cpp 151-169) -/

/-- The terminal sink constructed by the format dispatch. -/
inductive Sink where
  | SimpleSVGOutput
  | SimpleGerberOutput
  deriving DecidableEq, Repr

/-- The `if (fmt == "svg") ... else if (fmt == "gbr" || ...) ... else` chain,
applied to the already lower-cased `fmt`; `none` is the unknown-format branch. -/
def selectSink (fmt : Str) : Option Sink :=
  if fmt = "svg".toList then some Sink.SimpleSVGOutput
  else if fmt = "gbr".toList ∨ fmt = "grb".toList ∨ fmt = "gerber".toList then
    some Sink.SimpleGerberOutput
  else none

/-- Format resolution for the value of `--format` (`none`: option absent,
default "gerber"). -/
def resolveFormat (ofmt : Option Str) : Option Sink :=
  selectSink (lowercase (ofmt.getD "gerber".toList))

/-! ## `id_match` (main.cpp 176-181) -/

/-- The state of the `stringstream` that matters to `getline`: the unread
characters and the `eofbit` / `failbit` flags. -/
structure StringStream where
  buf : Str
  eofbit : Bool
  failbit : Bool
  deriving DecidableEq, Repr

/-- The stream's `good()`. -/
def StringStream.good (ss : StringStream) : Bool := !ss.eofbit && !ss.failbit

/-- The stream's `operator bool`, that is `!fail()`. -/
def StringStream.ok (ss : StringStream) : Bool := !ss.failbit

/-- Character extraction of `getline`: the characters before the first
`delim`, and what follows the delimiter (`none` when the end of the buffer is
reached first). -/
def extractUntil (delim : Char) : Str → Str × Option Str
  | [] => ([], none)
  | c :: cs =>
    if c = delim then ([], some cs)
    else ((c :: (extractUntil delim cs).1), (extractUntil delim cs).2)

/-- `std::getline(ss, str, delim)`. When the sentry fails (stream not good)
`failbit` is set and `str` is untouched. Otherwise `str` is erased and
refilled; the delimiter is extracted and dropped; hitting the end sets
`eofbit`, and `failbit` too when nothing at all was extracted. -/
def getline (ss : StringStream) (str : Str) (delim : Char) : StringStream × Str :=
  if ss.good then
    match extractUntil delim ss.buf with
    | (piece, some rest) => ({ ss with buf := rest }, piece)
    | (piece, none) => ({ buf := [], eofbit := true, failbit := piece.isEmpty }, piece)
  else ({ ss with failbit := true }, str)

/-- The loop `while (getline(ss, out.emplace_back(), ',')) {}`: every round
appends a fresh empty string to `out` and reads into it. `none` when the
fuel runs out. -/
def id_match_loop : Nat → StringStream → List Str → Option (List Str)
  | 0, _, _ => none
  | fuel + 1, ss, out =>
    let r := getline ss [] ','
    if r.1.ok then id_match_loop fuel r.1 (out ++ [r.2]) else some (out ++ [r.2])

/-- The lambda `id_match(in, out)`: the loop followed by `out.pop_back()`. -/
def id_match (inp : Str) (out : List Str) : Option (List Str) :=
  (id_match_loop (inp.length + 2) ⟨inp, false, false⟩ out).map List.dropLast

/-! ## Input kind detection (main.cpp 210-220) -/

/-- `s.rfind(".")`: the index of the last `.`; `none` is `string::npos`. -/
def rfindDot : Str → Option Nat
  | [] => none
  | c :: cs =>
    match rfindDot cs with
    | some i => some (i + 1)
    | none => if c = '.' then some 0 else none

/-- The lower-cased `ending` of the input file name. -/
def ending (in_f_name : Str) : Str :=
  match rfindDot in_f_name with
  | some idx => lowercase (in_f_name.drop idx)
  | none => []

/-- The flag `is_svg`. -/
def is_svg (in_f_name : Str) (force_svg force_png : Bool) : Bool :=
  force_svg || (decide (ending in_f_name = ".svg".toList) && !force_png)

/-! ## `double`, `strtod` and stream output of a `double`

The driver converts the two halves of `--size` with `std::strtod`, compares
them with `1` and writes them to an `ofstream` with default formatting. These
library operations are modelled for IEEE-754 binary64 with round-to-nearest
(ties to even), the "C" locale, and the default stream precision of 6 with no
`floatfield` flag, which is `printf`'s `%.6g`.
-/

/-- An IEEE-754 binary64 value: `finite neg m e` is `(-1)^neg * m * 2^e`. -/
inductive Double where
  | finite (neg : Bool) (m : Nat) (e : Int)
  | inf (neg : Bool)
  | nan (neg : Bool)
  deriving DecidableEq, Repr

/-- Number of binary digits of `n` added to `acc`, with `fuel` rounds. -/
def bitLenAux : Nat → Nat → Nat → Nat
  | 0, _, acc => acc
  | fuel + 1, n, acc => if n = 0 then acc else bitLenAux fuel (n / 2) (acc + 1)

/-- Number of binary digits of `n`. -/
def bitLen (n : Nat) : Nat := bitLenAux n n 0

/-- The fraction `n / (d * 2^e)` as a pair numerator, denominator. -/
def scale2 (n d : Nat) (e : Int) : Nat × Nat :=
  if 0 ≤ e then (n, d * 2 ^ e.toNat) else (n * 2 ^ (-e).toNat, d)

/-- The fraction `n / (d * 10^e)` as a pair numerator, denominator. -/
def scale10 (n d : Nat) (e : Int) : Nat × Nat :=
  if 0 ≤ e then (n, d * 10 ^ e.toNat) else (n * 10 ^ (-e).toNat, d)

/-- Quotient `a / b` rounded to the nearest integer, ties to even. -/
def roundHalfEven (a b : Nat) : Nat :=
  let q := a / b
  let r := a % b
  if b < 2 * r ∨ (2 * r = b ∧ q % 2 = 1) then q + 1 else q

/-- The binary64 value nearest to `(-1)^neg * n / d` (with `0 < d`):
53 significant bits, least exponent `-1074`, overflow to infinity. -/
def roundBinary64 (neg : Bool) (n d : Nat) : Double :=
  if n = 0 then Double.finite neg 0 0
  else
    let E0 : Int := (bitLen n : Int) - (bitLen d : Int)
    let s0 := scale2 n d E0
    let E : Int := if s0.2 ≤ s0.1 then E0 else E0 - 1
    let e : Int := max (E - 52) (-1074)
    let s := scale2 n d e
    let m := roundHalfEven s.1 s.2
    if m = 0 then Double.finite neg 0 0
    else
      let m1 := if m = 2 ^ 53 then 2 ^ 52 else m
      let e1 := if m = 2 ^ 53 then e + 1 else e
      if 971 < e1 then Double.inf neg else Double.finite neg m1 e1

/-- The comparison `x < 1` on doubles (false for a NaN). -/
def Double.ltOne : Double → Bool
  | Double.nan _ => false
  | Double.inf neg => neg
  | Double.finite neg m e =>
    if neg then true
    else if 0 ≤ e then decide (m = 0) else decide (m < 2 ^ (-e).toNat)

/-- `isspace` in the "C" locale. -/
def isspace (c : Char) : Bool :=
  c = ' ' || c = '\t' || c = '\n' || c = '\x0b' || c = '\x0c' || c = '\r'

/-- Value of a decimal digit character. -/
def digitVal (c : Char) : Option Nat :=
  if '0'.toNat ≤ c.toNat ∧ c.toNat ≤ '9'.toNat then some (c.toNat - '0'.toNat) else none

/-- Value of a hexadecimal digit character. -/
def hexVal (c : Char) : Option Nat :=
  if '0'.toNat ≤ c.toNat ∧ c.toNat ≤ '9'.toNat then some (c.toNat - '0'.toNat)
  else if 'a'.toNat ≤ c.toNat ∧ c.toNat ≤ 'f'.toNat then some (c.toNat - 'a'.toNat + 10)
  else if 'A'.toNat ≤ c.toNat ∧ c.toNat ≤ 'F'.toNat then some (c.toNat - 'A'.toNat + 10)
  else none

/-- Reads the longest run of digits (as given by `val`) in base `base`:
the accumulated value, the number of digits read, and the rest. -/
def readDigits (val : Char → Option Nat) (base : Nat) : Nat → Nat → Str → Nat × Nat × Str
  | acc, cnt, [] => (acc, cnt, [])
  | acc, cnt, c :: cs =>
    match val c with
    | some v => readDigits val base (acc * base + v) (cnt + 1) cs
    | none => (acc, cnt, c :: cs)

/-- A digit run with an optional radix point inside: the value of all digits
read as one integer, how many digits were read, how many of them follow the
point, and the rest of the input. -/
def readMantissa (val : Char → Option Nat) (base : Nat) (s : Str) : Nat × Nat × Nat × Str :=
  let ip := readDigits val base 0 0 s
  match ip.2.2 with
  | '.' :: rest =>
    let fp := readDigits val base ip.1 0 rest
    (fp.1, ip.2.1 + fp.2.1, fp.2.1, fp.2.2)
  | rest => (ip.1, ip.2.1, 0, rest)

/-- An exponent part: the marker (`e`/`E` or `p`/`P`), an optional sign and at
least one decimal digit; `0` when there is no such part. -/
def readExponent (lower upper : Char) : Str → Int
  | [] => 0
  | c :: cs =>
    if c = lower ∨ c = upper then
      match cs with
      | '-' :: ds =>
        let r := readDigits digitVal 10 0 0 ds
        if r.2.1 = 0 then 0 else -(r.1 : Int)
      | '+' :: ds =>
        let r := readDigits digitVal 10 0 0 ds
        if r.2.1 = 0 then 0 else (r.1 : Int)
      | ds =>
        let r := readDigits digitVal 10 0 0 ds
        if r.2.1 = 0 then 0 else (r.1 : Int)
    else 0

/-- The decimal form of the subject sequence: digits with an optional point
and an optional exponent. No digit at all is "no conversion", value `+0`. -/
def strtodDecimal (neg : Bool) (s : Str) : Double :=
  let m := readMantissa digitVal 10 s
  if m.2.1 = 0 then Double.finite false 0 0
  else
    let x : Int := readExponent 'e' 'E' m.2.2.2 - (m.2.2.1 : Int)
    let f := scale10 m.1 1 (-x)
    roundBinary64 neg f.1 f.2

/-- The unsigned part of `strtod`'s subject sequence: `inf`, `nan`, a
hexadecimal form after `0x`, or the decimal form. -/
def strtodUnsigned (neg : Bool) (s : Str) : Double :=
  if (lowercase (s.take 3)) = "inf".toList then Double.inf neg
  else if (lowercase (s.take 3)) = "nan".toList then Double.nan neg
  else
    match s with
    | '0' :: x :: rest =>
      if x = 'x' ∨ x = 'X' then
        let m := readMantissa hexVal 16 rest
        if m.2.1 = 0 then Double.finite neg 0 0
        else
          let p : Int := readExponent 'p' 'P' m.2.2.2 - 4 * (m.2.2.1 : Int)
          let f := scale2 m.1 1 (-p)
          roundBinary64 neg f.1 f.2
      else strtodDecimal neg s
    | _ => strtodDecimal neg s

/-- `std::strtod(s, nullptr)`: leading white space is skipped, an optional
sign is read, the longest valid prefix is converted and whatever follows it
is ignored. -/
def strtod (s : Str) : Double :=
  match s.dropWhile isspace with
  | '-' :: rest => strtodUnsigned true rest
  | '+' :: rest => strtodUnsigned false rest
  | rest => strtodUnsigned false rest

/-- The `k` low decimal digits of `n`, most significant first. -/
def decDigits : Nat → Nat → Str
  | 0, _ => []
  | k + 1, n => decDigits k (n / 10) ++ [Char.ofNat ('0'.toNat + n % 10)]

/-- Number of decimal digits of `n` added to `acc`, with `fuel` rounds. -/
def decLenAux : Nat → Nat → Nat → Nat
  | 0, _, acc => acc
  | fuel + 1, n, acc => if n = 0 then acc else decLenAux fuel (n / 10) (acc + 1)

/-- Number of decimal digits of `n` (`0` for `0`). -/
def decLen (n : Nat) : Nat := decLenAux n n 0

/-- For `0 < a < b`: the least `k ≥ from` with `b ≤ a * 10^k`, searched for
`fuel` rounds. -/
def negExpSearch (a b : Nat) : Nat → Nat → Nat
  | 0, k => k
  | fuel + 1, k => if b ≤ a * 10 ^ k then k else negExpSearch a b fuel (k + 1)

/-- The decimal exponent `X` of the positive fraction `a / b`:
`10^X ≤ a / b < 10^(X+1)`. -/
def decExponent (a b : Nat) : Int :=
  if b ≤ a then (decLen (a / b) : Int) - 1
  else -(negExpSearch a b (bitLen b) 1 : Int)

/-- A digit string without its trailing zeros. -/
def stripZeros (ds : Str) : Str := (ds.reverse.dropWhile (fun c => c = '0')).reverse

/-- A fraction part: nothing when empty, else a point and the digits. -/
def fracPart (ds : Str) : Str := if ds = [] then [] else '.' :: ds

/-- The `%.6g` rendering of the positive fraction `a / b`: six significant
digits (ties to even), fixed form when the decimal exponent lies in
`-4 .. 5` and exponent form otherwise, trailing zeros removed. -/
def fmtG6 (a b : Nat) : Str :=
  let X0 := decExponent a b
  let s := scale10 a b (X0 - 5)
  let n0 := roundHalfEven s.1 s.2
  let n := if n0 = 1000000 then 100000 else n0
  let X := if n0 = 1000000 then X0 + 1 else X0
  let ds := decDigits 6 n
  if -4 ≤ X ∧ X < 6 then
    if 0 ≤ X then ds.take (X.toNat + 1) ++ fracPart (stripZeros (ds.drop (X.toNat + 1)))
    else '0' :: '.' :: (List.replicate ((-X).toNat - 1) '0' ++ stripZeros ds)
  else
    ds.take 1 ++ fracPart (stripZeros (ds.drop 1)) ++
      ('e' :: (if X < 0 then '-' else '+') :: decDigits (max 2 (decLen X.natAbs)) X.natAbs)

/-- What `os << x` writes for a `double` on a stream with default flags. -/
def Double.put : Double → Str
  | Double.nan neg => (if neg then ['-'] else []) ++ "nan".toList
  | Double.inf neg => (if neg then ['-'] else []) ++ "inf".toList
  | Double.finite neg m e =>
    (if neg then ['-'] else []) ++
      (if m = 0 then ['0'] else fmtG6 (scale2 m 1 (-e)).1 (scale2 m 1 (-e)).2)

/-! ## `--size` validation (main.cpp 223-250) -/

/-- How a run of `main` ends: one constructor per `return` statement. -/
inductive Outcome where
  | help
  | version
  | cannot_open_input
  | cannot_open_output
  | unknown_format
  | unknown_vectorizer
  | size_missing
  | size_form
  | size_value
  | usvg_create
  | usvg_join
  | usvg_exit
  | usvg_destroy
  | load_failed
  | success
  deriving DecidableEq, Repr

/-- The process exit status: `EXIT_SUCCESS` is 0, `EXIT_FAILURE` is 1. -/
def Outcome.exit_code : Outcome → Nat
  | Outcome.help => 0
  | Outcome.version => 0
  | Outcome.success => 0
  | _ => 1

/-- The outcomes reported as a configuration error: a bad `--format`,
`--vectorizer` or `--size`. -/
def Outcome.is_config_error : Outcome → Bool
  | Outcome.unknown_format => true
  | Outcome.unknown_vectorizer => true
  | Outcome.size_missing => true
  | Outcome.size_form => true
  | Outcome.size_value => true
  | _ => false

/-- The separator characters of `sz.find_first_of("x*,")`. -/
def is_size_sep (c : Char) : Bool := c = 'x' || c = '*' || c = ','

/-- `sz.find_first_of("x*,")`; `none` is `string::npos`. -/
def find_first_of_sep : Str → Option Nat
  | [] => none
  | c :: cs => if is_size_sep c then some 0 else (find_first_of_sep cs).map (· + 1)

/-- The `--size` block: the option must be present, must hold a separator,
and the `strtod` of the text before and after the first separator must not
be less than 1. On success the pair `width`, `height`. -/
def check_size (size : Option Str) : Except Outcome (Double × Double) :=
  match size with
  | none => Except.error Outcome.size_missing
  | some sz =>
    match find_first_of_sep sz with
    | none => Except.error Outcome.size_form
    | some pos =>
      let x_str := sz.take pos
      let y_str := sz.drop (pos + 1)
      let width := strtod x_str
      let height := strtod y_str
      if width.ltOne || height.ltOne then Except.error Outcome.size_value
      else Except.ok (width, height)

/-! ## Raster envelope (main.cpp 252-281) -/

/-- The attribute `par_attr` from `--preserve-aspect-ratio`. -/
def par_attr (preserve_aspect_ratio : Option Str) : Str :=
  match preserve_aspect_ratio with
  | none => "none".toList
  | some aspect_ratio =>
    if aspect_ratio = "meet".toList then "xMidYMid meet".toList
    else if aspect_ratio = "slice".toList then "xMidYMid slice".toList
    else aspect_ratio

/-- Everything written to the stream `svg`, in order; `encoded` is the
result of `base64_encode(le_data)` and `endl` writes a newline. -/
def raster_svg (width height : Double) (par : Str) (encoded : Str) : Str :=
  "<svg width=\"".toList ++ width.put ++ "mm\" height=\"".toList ++ height.put
    ++ "mm\" viewBox=\"0 0 ".toList ++ width.put ++ " ".toList ++ height.put ++ "\" ".toList
    ++ "xmlns=\"http://www.w3.org/2000/svg\" xmlns:xlink=\"http://www.w3.org/1999/xlink\">".toList
    ++ "\n".toList
    ++ "<image width=\"".toList ++ width.put ++ "\" height=\"".toList ++ height.put
    ++ "\" x=\"0\" y=\"0\" preserveAspectRatio=\"".toList
    ++ par ++ "\" xlink:href=\"data:image/png;base64,".toList
    ++ encoded
    ++ "\"/>".toList ++ "\n".toList
    ++ "</svg>".toList ++ "\n".toList

/-! ## The run of `main` -/

/-- The parsed command line (`argagg::parser_results`), restricted to the
options that steer `main` or reach the modelled output. The options that are
only handed on to the sinks and the renderer (`--precision`, the colours,
`--trace-space`, `--no-header`, `--vectorizer-map`) are left out; their
conversion by `argagg` is taken to succeed. -/
structure Args where
  help : Bool
  version : Bool
  ofmt : Option Str
  flatten : Bool
  only_groups : Option Str
  vectorizer : Option Str
  force_svg : Bool
  force_png : Bool
  size : Option Str
  preserve_aspect_ratio : Option Str
  skip_usvg : Bool
  exclude_groups : Option Str
  pos : List Str

/-- What the run meets outside `main.cpp`: the file system, the input bytes,
the two names handed out by `std::tmpnam`, and the results of the library
and collaborator calls (`makeVectorizer`, `base64_encode`, the `usvg`
subprocess, `SVGDocument::load`). -/
structure Env where
  files : List Str
  can_read : Str → Bool
  can_write : Str → Bool
  input : Str
  tmpnam1 : Str
  tmpnam2 : Str
  makeVectorizer : Str → Bool
  base64_encode : Str → Str
  create_rc : Int
  join_rc : Int
  usvg_rc : Int
  destroy_rc : Int
  usvg_writes_dst : Bool
  doc_load : Bool

/-- A file-system or collaborator action taken by the run. -/
inductive Event where
  | open_in (path : Str)
  | open_out (path : Str)
  | write_temp (path : Str) (content : Str)
  | subprocess (src dst : Str)
  | load (path : Str)
  | render (sink : Sink) (flatten : Bool) (incl excl : List Str)
  | remove (path : Str)
  deriving DecidableEq, Repr

/-- The paths that exist, and the actions taken so far. -/
structure State where
  files : List Str
  trace : List Event
  deriving DecidableEq, Repr

/-- Appends an action to the trace. -/
def State.log (s : State) (e : Event) : State := { s with trace := s.trace ++ [e] }

/-- The path exists from now on (an output stream was opened on it). -/
def State.create (s : State) (p : Str) : State :=
  { s with files := if p ∈ s.files then s.files else p :: s.files }

/-- The path no longer exists (`remove`). -/
def State.delete (s : State) (p : Str) : State :=
  { s with files := s.files.filter (fun q => q ≠ p) }

/-- Opening an `ofstream` on `p`: the attempt is an action; the file is
created (or truncated) when the open succeeds. -/
def State.open_for_write (s : State) (env : Env) (p : Str) (e : Event) : State :=
  if env.can_write p then (s.log e).create p else s.log e

/-- The value of `in_f_name`: `args.pos[0]` when present. -/
def in_f_name (args : Args) : Str := args.pos.getD 0 []

/-- The value of `out_f_name`: `args.pos[1]` when present. -/
def out_f_name (args : Args) : Str := args.pos.getD 1 []

/-- The path `barf`: `temp_directory_path() /= (tmpnam(nullptr) + ".svg")`;
the name from `tmpnam` is absolute, so it replaces the directory. -/
def barf (env : Env) : Str := env.tmpnam1 ++ ".svg".toList

/-- The path `frob` as first assigned, from the second `tmpnam` call. -/
def frob0 (env : Env) : Str := env.tmpnam2 ++ ".svg".toList

/-- The path `frob` after the `skip_usvg` branch. -/
def frob (env : Env) (args : Args) : Str := if args.skip_usvg then barf env else frob0 env

/-- The identifier list an `id_match` call leaves in a fresh vector, for an
option that may be absent. -/
def selection (opt : Option Str) : List Str :=
  match opt with
  | none => []
  | some s => (id_match s []).getD []

/-- Lines 328-348: load the normalized document, render, clean up. -/
def main_render (env : Env) (args : Args) (sink : Sink) (svg : Bool) (s : State) :
    Outcome × State :=
  let s1 := s.log (Event.load (frob env args))
  if !env.doc_load then (Outcome.load_failed, s1)
  else
    let s2 := s1.log (Event.render sink args.flatten (selection args.only_groups)
      (selection args.exclude_groups))
    if !svg then
      let s3 := (s2.log (Event.remove (frob env args))).delete (frob env args)
      let s4 := (s3.log (Event.remove (barf env))).delete (barf env)
      (Outcome.success, s4)
    else (Outcome.success, s2)

/-- Lines 296-326: the `usvg` call, unless skipped. -/
def main_usvg (env : Env) (args : Args) (sink : Sink) (svg : Bool) (s : State) :
    Outcome × State :=
  if args.skip_usvg then main_render env args sink svg s
  else
    let s1 := s.log (Event.subprocess (barf env) (frob0 env))
    if env.create_rc ≠ 0 then (Outcome.usvg_create, s1)
    else
      let s2 := if env.usvg_writes_dst then s1.create (frob0 env) else s1
      if env.join_rc ≠ 0 then (Outcome.usvg_join, s2)
      else if env.usvg_rc ≠ 0 then (Outcome.usvg_exit, s2)
      else if env.destroy_rc ≠ 0 then (Outcome.usvg_destroy, s2)
      else main_render env args sink svg s2

/-- Lines 210-294: input kind, `--size` validation and staging of `barf`. -/
def main_stage (env : Env) (args : Args) (sink : Sink) (s : State) : Outcome × State :=
  let svg := is_svg (in_f_name args) args.force_svg args.force_png
  if !svg then
    match check_size args.size with
    | Except.error o => (o, s)
    | Except.ok (width, height) =>
      let doc := raster_svg width height (par_attr args.preserve_aspect_ratio)
        (env.base64_encode env.input)
      main_usvg env args sink svg (s.open_for_write env (barf env) (Event.write_temp (barf env) doc))
  else
    main_usvg env args sink svg
      (s.open_for_write env (barf env) (Event.write_temp (barf env) env.input))

/-- Lines 151-198: format dispatch and the vectorizer check. -/
def main_config (env : Env) (args : Args) (s : State) : Outcome × State :=
  match resolveFormat args.ofmt with
  | none => (Outcome.unknown_format, s)
  | some sink =>
    if !env.makeVectorizer (args.vectorizer.getD "poisson-disc".toList) then
      (Outcome.unknown_vectorizer, s)
    else main_stage env args sink s

/-- Lines 135-142: the output file is opened when it is named and not "-". -/
def main_open_out (env : Env) (args : Args) (s : State) : Outcome × State :=
  if out_f_name args ≠ [] ∧ out_f_name args ≠ "-".toList then
    let s1 := s.open_for_write env (out_f_name args) (Event.open_out (out_f_name args))
    if !env.can_write (out_f_name args) then (Outcome.cannot_open_output, s1)
    else main_config env args s1
  else main_config env args s

/-- Lines 126-133: the input file is opened when it is named and not "-". -/
def main_open_in (env : Env) (args : Args) (s : State) : Outcome × State :=
  if in_f_name args ≠ [] ∧ in_f_name args ≠ "-".toList then
    let s1 := s.log (Event.open_in (in_f_name args))
    if !env.can_read (in_f_name args) then (Outcome.cannot_open_input, s1)
    else main_open_out env args s1
  else main_open_out env args s

/-- The function `main`, from the parsed arguments on: how the run ends, the
paths that exist at exit and the actions it took. -/
def main (env : Env) (args : Args) : Outcome × State :=
  if args.help then (Outcome.help, ⟨env.files, []⟩)
  else if args.version then (Outcome.version, ⟨env.files, []⟩)
  else main_open_in env args ⟨env.files, []⟩

/-! ## Specification-side definitions -/

/-- The pieces obtained by splitting `s` at every `,`. -/
def split_at_commas (s : Str) : List Str := s.splitOn ','

/-- A list of pieces with its final piece dropped when that piece is empty. -/
def drop_final_empty (ps : List Str) : List Str :=
  if ps.getLast? = some [] then ps.dropLast else ps

/-- The content of `out` when the loop ends, before `pop_back`. -/
def pre_pop (s : Str) : List Str :=
  if (split_at_commas s).getLast? = some [] then split_at_commas s
  else split_at_commas s ++ [[]]

/-- A path given on the command line that names a file: not empty and not
"-", which stands for the standard stream. -/
def names_file (p : Str) : Bool := decide (p ≠ [] ∧ p ≠ "-".toList)

/-- The `remove` actions. -/
def Event.is_remove : Event → Bool
  | Event.remove _ => true
  | _ => false

/-- The characters a decimal floating-point literal is written with. -/
def is_float_char (c : Char) : Bool :=
  (digitVal c).isSome || c = '.' || c = '+' || c = '-' || c = 'e' || c = 'E'

/-- A necessary condition of the form `<float><sep><float>`: one separator
character, with non-empty text on both sides written in the characters of a
decimal floating-point literal. -/
def size_shape (s : Str) : Bool :=
  match find_first_of_sep s with
  | none => false
  | some pos =>
    let a := s.take pos
    let b := s.drop (pos + 1)
    !a.isEmpty && !b.isEmpty && a.all is_float_char && b.all is_float_char

/-- The opening actions of a run: one for the input path and one for the
output path, each only when it names a file. -/
def opens (args : Args) : List Event :=
  (if names_file (in_f_name args) then [Event.open_in (in_f_name args)] else []) ++
    (if names_file (out_f_name args) then [Event.open_out (out_f_name args)] else [])

/-- The files present once both streams are open: those of the start, and
the output file when one is named. -/
def files_after_opens (env : Env) (args : Args) : List Str :=
  if names_file (out_f_name args) then
    (if out_f_name args ∈ env.files then env.files else out_f_name args :: env.files)
  else env.files

/-- The outcomes of a run that got past the validation of its options and
staged its input: the `usvg` and load failures, and success. -/
def Outcome.staged : Outcome → Bool
  | Outcome.usvg_create => true
  | Outcome.usvg_join => true
  | Outcome.usvg_exit => true
  | Outcome.usvg_destroy => true
  | Outcome.load_failed => true
  | Outcome.success => true
  | _ => false

/-- Whether a `--size` string gets past the validation. -/
def size_accepted (s : Str) : Bool :=
  match check_size (some s) with
  | Except.ok _ => true
  | Except.error _ => false

/-! ## Scenarios -/

/-- A host on which everything works: the two input files exist, any file
can be created, `usvg` runs and writes its output, the document loads. -/
def env_demo : Env where
  files := ["photo.png".toList, "drawing.svg".toList]
  can_read := fun p => decide (p = "photo.png".toList ∨ p = "drawing.svg".toList)
  can_write := fun _ => true
  input := "PNG".toList
  tmpnam1 := "/tmp/fileAb12Cd".toList
  tmpnam2 := "/tmp/fileEf34Gh".toList
  makeVectorizer := fun v => decide (v ∈ ["poisson-disc".toList, "hex-grid".toList,
    "square-grid".toList, "binary-contours".toList, "dev-null".toList])
  base64_encode := fun d => if d = "PNG".toList then "UE5H".toList else []
  create_rc := 0
  join_rc := 0
  usvg_rc := 0
  destroy_rc := 0
  usvg_writes_dst := true
  doc_load := true

/-- A command line with no option and no positional argument. -/
def args_none : Args where
  help := false
  version := false
  ofmt := none
  flatten := false
  only_groups := none
  vectorizer := none
  force_svg := false
  force_png := false
  size := none
  preserve_aspect_ratio := none
  skip_usvg := false
  exclude_groups := none
  pos := []

/-- The command line `--format dxf photo.png out.gbr`. -/
def args_dxf : Args :=
  { args_none with ofmt := some "dxf".toList, pos := ["photo.png".toList, "out.gbr".toList] }

/-- The command line `drawing.svg`. -/
def args_vector : Args := { args_none with pos := ["drawing.svg".toList] }

/-- The command line `--size <sz> photo.png`. -/
def args_raster (sz : String) : Args :=
  { args_none with size := some sz.toList, pos := ["photo.png".toList] }

/-- The command line `--no-usvg --size 50x30 photo.png`. -/
def args_skip : Args := { args_raster "50x30" with skip_usvg := true }

/-- The host of `env_demo` with an SVG document as input. -/
def env_vector : Env := { env_demo with input := "<svg/>".toList }

/-- The host of `env_demo`, except that `usvg` exits with status 1 and
writes nothing. -/
def env_usvg_fails : Env := { env_demo with usvg_rc := 1, usvg_writes_dst := false }

/-! ## Lemmas on `id_match` -/

theorem extractUntil_some (d : Char) :
    ∀ (s p rest : Str), extractUntil d s = (p, some rest) → s = p ++ d :: rest ∧ d ∉ p := by
  intro s
  induction s with
  | nil => intro p rest h; simp [extractUntil] at h
  | cons c cs ih =>
    intro p rest h
    unfold extractUntil at h
    by_cases hc : c = d
    · simp only [hc, if_true, Prod.mk.injEq, Option.some.injEq] at h
      obtain ⟨h1, h2⟩ := h
      subst h1; subst h2
      simp [hc]
    · simp only [hc, if_false, Prod.mk.injEq] at h
      obtain ⟨h1, h2⟩ := h
      have := ih (extractUntil d cs).1 rest (by rw [← h2])
      obtain ⟨e1, e2⟩ := this
      subst h1
      refine ⟨by rw [List.cons_append, ← e1], ?_⟩
      simp only [List.mem_cons, not_or]
      exact ⟨fun h => hc h.symm, e2⟩

theorem extractUntil_none (d : Char) :
    ∀ (s p : Str), extractUntil d s = (p, none) → p = s ∧ d ∉ s := by
  intro s
  induction s with
  | nil => intro p h; simp [extractUntil] at h; simp [h]
  | cons c cs ih =>
    intro p h
    unfold extractUntil at h
    by_cases hc : c = d
    · simp [hc] at h
    · simp only [hc, if_false, Prod.mk.injEq] at h
      obtain ⟨h1, h2⟩ := h
      have := ih (extractUntil d cs).1 (by rw [← h2])
      obtain ⟨e1, e2⟩ := this
      subst h1
      refine ⟨by rw [e1], ?_⟩
      simp only [List.mem_cons, not_or]
      exact ⟨fun h => hc h.symm, e2⟩

theorem split_at_commas_ne_nil (s : Str) : split_at_commas s ≠ [] :=
  List.splitOnP_ne_nil _ _

theorem split_at_commas_first (p rest : Str) (hp : ',' ∉ p) :
    split_at_commas (p ++ ',' :: rest) = p :: split_at_commas rest := by
  unfold split_at_commas List.splitOn
  apply List.splitOnP_first
  · intro x hx hx2
    have : x = ',' := by simpa using hx2
    exact hp (this ▸ hx)
  · simp

theorem split_at_commas_single (s : Str) (hs : ',' ∉ s) : split_at_commas s = [s] := by
  unfold split_at_commas List.splitOn
  apply List.splitOnP_eq_single
  intro x hx hx2
  have : x = ',' := by simpa using hx2
  exact hs (this ▸ hx)

theorem pre_pop_first (p rest : Str) (hp : ',' ∉ p) :
    pre_pop (p ++ ',' :: rest) = p :: pre_pop rest := by
  unfold pre_pop
  rw [split_at_commas_first p rest hp]
  obtain ⟨a, l, hl⟩ := List.exists_cons_of_ne_nil (split_at_commas_ne_nil rest)
  rw [hl]
  simp only [List.getLast?_cons_cons]
  split_ifs <;> simp

theorem id_match_loop_eq (n : Nat) :
    ∀ (s : Str) (fuel : Nat) (out : List Str), s.length ≤ n → s.length + 2 ≤ fuel →
      id_match_loop fuel ⟨s, false, false⟩ out = some (out ++ pre_pop s) := by
  induction n with
  | zero =>
    intro s fuel out hn hf
    have hs : s = [] := List.eq_nil_of_length_eq_zero (Nat.le_zero.mp hn)
    subst hs
    obtain ⟨f, rfl⟩ : ∃ f, fuel = f + 1 := ⟨fuel - 1, by simp at hf; omega⟩
    simp [id_match_loop, getline, StringStream.good, StringStream.ok, extractUntil, pre_pop,
      split_at_commas]
  | succ n ih =>
    intro s fuel out hn hf
    obtain ⟨f, rfl⟩ : ∃ f, fuel = f + 1 := ⟨fuel - 1, by omega⟩
    rcases hx : extractUntil ',' s with ⟨p, _ | rest⟩
    · obtain ⟨hp, hc⟩ := extractUntil_none ',' s p hx
      subst hp
      by_cases hnil : p = []
      · subst hnil
        simp [id_match_loop, getline, StringStream.good, StringStream.ok, extractUntil, pre_pop,
          split_at_commas]
      · obtain ⟨g, rfl⟩ : ∃ g, f = g + 1 := ⟨f - 1, by omega⟩
        have hpp : pre_pop p = [p, []] := by
          unfold pre_pop
          rw [split_at_commas_single p hc]
          simp [hnil]
        simp [id_match_loop, getline, StringStream.good, StringStream.ok, hx, hnil, hpp]
    · obtain ⟨hs, hc⟩ := extractUntil_some ',' s p rest hx
      have hlen : rest.length ≤ n := by
        have : s.length = p.length + (rest.length + 1) := by rw [hs]; simp
        omega
      have hfuel : rest.length + 2 ≤ f := by
        have : s.length = p.length + (rest.length + 1) := by rw [hs]; simp
        omega
      have key := ih rest f (out ++ [p]) hlen hfuel
      have hpp : pre_pop s = p :: pre_pop rest := by rw [hs]; exact pre_pop_first p rest hc
      simp [id_match_loop, getline, StringStream.good, StringStream.ok, hx, key, hpp]

theorem pre_pop_dropLast (s : Str) : (pre_pop s).dropLast = drop_final_empty (split_at_commas s) := by
  unfold pre_pop drop_final_empty
  split_ifs <;> simp

/-- The call `id_match(s, out)` on an empty `out` always returns, with the
pieces of `s` less one final empty piece. -/
theorem id_match_eq (s : Str) : id_match s [] = some (drop_final_empty (split_at_commas s)) := by
  unfold id_match
  rw [id_match_loop_eq s.length s (s.length + 2) [] (Nat.le_refl _) (Nat.le_refl _)]
  simp [pre_pop_dropLast]

theorem split_at_commas_cons (x : Char) (xs : Str) :
    split_at_commas (x :: xs) =
      if x = ',' then [] :: split_at_commas xs
      else (split_at_commas xs).modifyHead (List.cons x) := by
  unfold split_at_commas List.splitOn
  rw [List.splitOnP_cons]
  simp

theorem split_at_commas_concat_comma (t : Str) :
    split_at_commas (t ++ [',']) = split_at_commas t ++ [[]] := by
  induction t with
  | nil => rfl
  | cons x xs ih =>
    rw [List.cons_append, split_at_commas_cons, split_at_commas_cons, ih]
    obtain ⟨a, l, hl⟩ := List.exists_cons_of_ne_nil (split_at_commas_ne_nil xs)
    rw [hl]
    split_ifs <;> simp [List.modifyHead]

theorem split_at_commas_concat_other (c : Char) (hc : c ≠ ',') (t : Str) :
    (split_at_commas (t ++ [c])).getLast? ≠ some [] := by
  induction t with
  | nil =>
    rw [List.nil_append, split_at_commas_cons]
    simp [hc, split_at_commas, List.modifyHead]
  | cons x xs ih =>
    rw [List.cons_append, split_at_commas_cons]
    obtain ⟨a, l, hl⟩ := List.exists_cons_of_ne_nil (split_at_commas_ne_nil (xs ++ [c]))
    rw [hl] at ih ⊢
    by_cases hx : x = ','
    · simpa [hx] using ih
    · cases l with
      | nil => simp [hx, List.modifyHead]
      | cons b l2 => simpa [hx, List.modifyHead] using ih

/-- The final piece of a split is empty exactly for the empty string and for
a string that ends in a comma. -/
theorem split_at_commas_last_empty (t : Str) :
    (split_at_commas t).getLast? = some [] ↔ t = [] ∨ ∃ v, t = v ++ [','] := by
  rcases List.eq_nil_or_concat t with h | ⟨u, c, h⟩
  · subst h; simp [split_at_commas]
  · rw [List.concat_eq_append] at h
    subst h
    by_cases hc : c = ','
    · subst hc
      rw [split_at_commas_concat_comma]
      simp
    · constructor
      · intro h; exact absurd h (split_at_commas_concat_other c hc u)
      · rintro (h | ⟨v, h⟩)
        · simp at h
        · have := List.append_inj_right' h rfl
          simp at this
          exact absurd this hc

theorem split_at_commas_no_comma (s : Str) : ∀ p ∈ split_at_commas s, ',' ∉ p := by
  induction s with
  | nil => simp [split_at_commas]
  | cons x xs ih =>
    rw [split_at_commas_cons]
    obtain ⟨a, l, hl⟩ := List.exists_cons_of_ne_nil (split_at_commas_ne_nil xs)
    rw [hl] at ih ⊢
    by_cases hx : x = ','
    · intro p hp
      simp only [hx, if_true, List.mem_cons] at hp
      rcases hp with h | h
      · simp [h]
      · exact ih p (by simpa using h)
    · intro p hp
      simp only [hx, if_false, List.modifyHead, List.mem_cons] at hp
      rcases hp with h | h
      · subst h
        have := ih a (by simp)
        simp only [List.mem_cons, not_or]
        exact ⟨fun h => hx h.symm, this⟩
      · exact ih p (by simp [h])

theorem drop_final_empty_subset (ps : List Str) : ∀ p ∈ drop_final_empty ps, p ∈ ps := by
  intro p hp
  unfold drop_final_empty at hp
  split_ifs at hp
  · exact List.mem_of_mem_dropLast hp
  · exact hp

/-! ## Lemmas on `rfindDot` -/

theorem rfindDot_none_of_not_mem : ∀ (s : Str), '.' ∉ s → rfindDot s = none := by
  intro s
  induction s with
  | nil => intro _; rfl
  | cons c cs ih =>
    intro h
    simp only [List.mem_cons, not_or] at h
    have hc : c ≠ '.' := fun e => h.1 e.symm
    simp [rfindDot, ih h.2, hc]

theorem rfindDot_append (suf : Str) (hs : '.' ∉ suf) :
    ∀ (pre : Str), rfindDot (pre ++ '.' :: suf) = some pre.length := by
  intro pre
  induction pre with
  | nil => simp [rfindDot, rfindDot_none_of_not_mem suf hs]
  | cons a pre ih => simp [rfindDot, ih]

theorem exists_last_dot : ∀ (n : Str), '.' ∈ n →
    ∃ pre suf, n = pre ++ '.' :: suf ∧ '.' ∉ suf := by
  intro n
  induction n with
  | nil => intro h; simp at h
  | cons a t ih =>
    intro h
    by_cases ht : '.' ∈ t
    · obtain ⟨pre, suf, e, hs⟩ := ih ht
      exact ⟨a :: pre, suf, by rw [e]; rfl, hs⟩
    · have ha : a = '.' := by
        rcases List.mem_cons.mp h with h | h
        · exact h.symm
        · exact absurd h ht
      exact ⟨[], t, by rw [ha]; rfl, ht⟩

theorem ending_of_split (pre suf : Str) (hs : '.' ∉ suf) :
    ending (pre ++ '.' :: suf) = lowercase ('.' :: suf) := by
  unfold ending
  rw [rfindDot_append suf hs pre]
  simp

theorem ending_of_no_dot (n : Str) (h : '.' ∉ n) : ending n = [] := by
  unfold ending
  rw [rfindDot_none_of_not_mem n h]

/-! ## Lemmas on the run -/

theorem main_render_not_config (env : Env) (args : Args) (sink : Sink) (svg : Bool) (s : State) :
    (main_render env args sink svg s).1.is_config_error = false := by
  unfold main_render
  split_ifs <;> rfl

/-- The `usvg` stage either ends the run itself, with one of its four error
outcomes, or hands over to the load-and-render stage; in both cases it has
removed nothing, kept every file and every earlier action, and with
`--no-usvg` it has done nothing at all. -/
theorem main_usvg_cases (env : Env) (args : Args) (sink : Sink) (svg : Bool) (s : State) :
    ∃ s2 : State,
      s2.trace.filter Event.is_remove = s.trace.filter Event.is_remove ∧
      (∀ p ∈ s.files, p ∈ s2.files) ∧ (∀ e ∈ s.trace, e ∈ s2.trace) ∧
      (args.skip_usvg = true → s2 = s) ∧
      (main_usvg env args sink svg s = main_render env args sink svg s2 ∨
        (args.skip_usvg = false ∧
          (main_usvg env args sink svg s = (Outcome.usvg_create, s2) ∨
           main_usvg env args sink svg s = (Outcome.usvg_join, s2) ∨
           main_usvg env args sink svg s = (Outcome.usvg_exit, s2) ∨
           main_usvg env args sink svg s = (Outcome.usvg_destroy, s2)))) := by
  by_cases h1 : args.skip_usvg = true
  · exact ⟨s, rfl, fun _ h => h, fun _ h => h, fun _ => rfl, Or.inl (by simp [main_usvg, h1])⟩
  · have h1f : args.skip_usvg = false := by simpa using h1
    by_cases h2 : env.create_rc = 0
    · by_cases hw : env.usvg_writes_dst = true
      · refine ⟨(s.log (Event.subprocess (barf env) (frob0 env))).create (frob0 env), ?_, ?_, ?_,
          ?_, ?_⟩
        · simp [State.log, State.create, Event.is_remove]
        · intro p hp
          simp only [State.log, State.create]
          split_ifs <;> simp [hp]
        · intro e he; simp [State.log, State.create, he]
        · intro h; exact absurd h h1
        · by_cases h3 : env.join_rc = 0
          · by_cases h4 : env.usvg_rc = 0
            · by_cases h5 : env.destroy_rc = 0
              · left; simp [main_usvg, h1f, h2, hw, h3, h4, h5]
              · right; simp [main_usvg, h1f, h2, hw, h3, h4, h5]
            · right; simp [main_usvg, h1f, h2, hw, h3, h4]
          · right; simp [main_usvg, h1f, h2, hw, h3]
      · refine ⟨s.log (Event.subprocess (barf env) (frob0 env)), ?_, ?_, ?_, ?_, ?_⟩
        · simp [State.log, Event.is_remove]
        · intro p hp; simpa [State.log] using hp
        · intro e he; simp [State.log, he]
        · intro h; exact absurd h h1
        · by_cases h3 : env.join_rc = 0
          · by_cases h4 : env.usvg_rc = 0
            · by_cases h5 : env.destroy_rc = 0
              · left; simp [main_usvg, h1f, h2, hw, h3, h4, h5]
              · right; simp [main_usvg, h1f, h2, hw, h3, h4, h5]
            · right; simp [main_usvg, h1f, h2, hw, h3, h4]
          · right; simp [main_usvg, h1f, h2, hw, h3]
    · refine ⟨s.log (Event.subprocess (barf env) (frob0 env)), ?_, ?_, ?_, ?_, ?_⟩
      · simp [State.log, Event.is_remove]
      · intro p hp; simpa [State.log] using hp
      · intro e he; simp [State.log, he]
      · intro h; exact absurd h h1
      · right; simp [main_usvg, h1f, h2]

theorem main_usvg_not_config (env : Env) (args : Args) (sink : Sink) (svg : Bool) (s : State) :
    (main_usvg env args sink svg s).1.is_config_error = false := by
  obtain ⟨s2, -, -, -, -, h | ⟨-, h | h | h | h⟩⟩ := main_usvg_cases env args sink svg s
  · rw [h]; exact main_render_not_config _ _ _ _ _
  all_goals rw [h]; rfl

theorem main_render_raster_files (env : Env) (args : Args) (sink : Sink) (s : State)
    (h : (main_render env args sink false s).1 = Outcome.success) :
    barf env ∉ (main_render env args sink false s).2.files ∧
      frob env args ∉ (main_render env args sink false s).2.files := by
  unfold main_render at h ⊢
  by_cases hl : env.doc_load = true
  · simp [hl, State.delete, State.log]
  · simp [hl] at h

theorem main_usvg_raster_files (env : Env) (args : Args) (sink : Sink) (s : State)
    (h : (main_usvg env args sink false s).1 = Outcome.success) :
    barf env ∉ (main_usvg env args sink false s).2.files ∧
      frob env args ∉ (main_usvg env args sink false s).2.files := by
  obtain ⟨s2, -, -, -, -, e | ⟨-, e | e | e | e⟩⟩ := main_usvg_cases env args sink false s
  · rw [e] at h ⊢; exact main_render_raster_files _ _ _ _ h
  all_goals rw [e] at h; simp at h

theorem main_render_removes (env : Env) (args : Args) (sink : Sink) (svg : Bool) (s : State) :
    (main_render env args sink svg s).2.trace.filter Event.is_remove =
      s.trace.filter Event.is_remove ++
        (if (main_render env args sink svg s).1 = Outcome.success ∧ svg = false then
          [Event.remove (frob env args), Event.remove (barf env)] else []) := by
  unfold main_render
  by_cases hl : env.doc_load = true <;> cases svg <;>
    simp [hl, State.delete, State.log, Event.is_remove]

theorem main_usvg_removes (env : Env) (args : Args) (sink : Sink) (svg : Bool) (s : State) :
    (main_usvg env args sink svg s).2.trace.filter Event.is_remove =
      s.trace.filter Event.is_remove ++
        (if (main_usvg env args sink svg s).1 = Outcome.success ∧ svg = false then
          [Event.remove (frob env args), Event.remove (barf env)] else []) := by
  obtain ⟨s2, hr, -, -, -, e | ⟨-, e | e | e | e⟩⟩ := main_usvg_cases env args sink svg s
  · rw [e, main_render_removes, hr]
  all_goals rw [e]; simp [hr]

theorem main_render_files_vector (env : Env) (args : Args) (sink : Sink) (s : State) :
    (main_render env args sink true s).2.files = s.files := by
  unfold main_render
  by_cases hl : env.doc_load = true <;> simp [hl, State.log]

theorem main_usvg_files_vector (env : Env) (args : Args) (sink : Sink) (s : State) :
    ∀ p ∈ s.files, p ∈ (main_usvg env args sink true s).2.files := by
  intro p hp
  obtain ⟨s2, -, hf, -, -, e | ⟨-, e | e | e | e⟩⟩ := main_usvg_cases env args sink true s
  · rw [e, main_render_files_vector]; exact hf p hp
  all_goals rw [e]; exact hf p hp

theorem main_render_trace_mono (env : Env) (args : Args) (sink : Sink) (svg : Bool) (s : State) :
    ∀ e ∈ s.trace, e ∈ (main_render env args sink svg s).2.trace := by
  intro e he
  unfold main_render
  by_cases hl : env.doc_load = true <;> cases svg <;> simp [hl, State.log, State.delete, he]

theorem main_usvg_trace_mono (env : Env) (args : Args) (sink : Sink) (svg : Bool) (s : State) :
    ∀ e ∈ s.trace, e ∈ (main_usvg env args sink svg s).2.trace := by
  intro e he
  obtain ⟨s2, -, -, ht, -, h | ⟨-, h | h | h | h⟩⟩ := main_usvg_cases env args sink svg s
  · rw [h]; exact main_render_trace_mono _ _ _ _ _ e (ht e he)
  all_goals rw [h]; exact ht e he

theorem main_render_new_actions (env : Env) (args : Args) (sink : Sink) (svg : Bool) (s : State) :
    ∀ e ∈ (main_render env args sink svg s).2.trace, e ∈ s.trace ∨
      e = Event.load (frob env args) ∨
      e = Event.render sink args.flatten (selection args.only_groups)
        (selection args.exclude_groups) ∨
      e = Event.remove (frob env args) ∨ e = Event.remove (barf env) := by
  intro e he
  unfold main_render at he
  by_cases hl : env.doc_load = true <;> cases svg <;>
    simp [hl, State.log, State.delete] at he <;> tauto

theorem main_usvg_skip_new_actions (env : Env) (args : Args) (sink : Sink) (svg : Bool)
    (s : State) (hs : args.skip_usvg = true) :
    ∀ e ∈ (main_usvg env args sink svg s).2.trace, e ∈ s.trace ∨
      e = Event.load (barf env) ∨
      e = Event.render sink args.flatten (selection args.only_groups)
        (selection args.exclude_groups) ∨
      e = Event.remove (barf env) := by
  intro e he
  have hu : main_usvg env args sink svg s = main_render env args sink svg s := by
    simp [main_usvg, hs]
  rw [hu] at he
  have hf : frob env args = barf env := by simp [frob, hs]
  have := main_render_new_actions env args sink svg s e he
  rw [hf] at this
  tauto

/-- From the format dispatch on, a run either stops with a configuration
error and an unchanged state, or stages its input in `barf` and goes on to
the `usvg` stage. -/
theorem main_config_cases (env : Env) (args : Args) (s : State) :
    (∃ o, o.is_config_error = true ∧ main_config env args s = (o, s)) ∨
    (∃ sink doc, resolveFormat args.ofmt = some sink ∧
      main_config env args s =
        main_usvg env args sink (is_svg (in_f_name args) args.force_svg args.force_png)
          (s.open_for_write env (barf env) (Event.write_temp (barf env) doc)) ∧
      (is_svg (in_f_name args) args.force_svg args.force_png = true → doc = env.input) ∧
      (is_svg (in_f_name args) args.force_svg args.force_png = false →
        ∃ w h, check_size args.size = Except.ok (w, h) ∧
          doc = raster_svg w h (par_attr args.preserve_aspect_ratio)
            (env.base64_encode env.input))) := by
  unfold main_config
  rcases hf : resolveFormat args.ofmt with _ | sink
  · left; exact ⟨Outcome.unknown_format, rfl, rfl⟩
  · by_cases hv : env.makeVectorizer (args.vectorizer.getD "poisson-disc".toList) = true
    · simp only [hv, Bool.not_true, Bool.false_eq_true, if_false]
      unfold main_stage
      by_cases hs : is_svg (in_f_name args) args.force_svg args.force_png = true
      · right
        exact ⟨sink, env.input, rfl, by simp [hs], fun _ => rfl, fun h => by simp [hs] at h⟩
      · have hs2 : is_svg (in_f_name args) args.force_svg args.force_png = false := by
          simpa using hs
        rcases hc : check_size args.size with o | ⟨w, h⟩
        · left
          refine ⟨o, ?_, by simp [hs2, hc]⟩
          unfold check_size at hc
          rcases hsz : args.size with _ | sz
          · simp [hsz] at hc; rw [← hc]; rfl
          · rcases hp : find_first_of_sep sz with _ | pos
            · simp [hsz, hp] at hc; rw [← hc]; rfl
            · simp only [hsz, hp] at hc
              split_ifs at hc
              · simp at hc; rw [← hc]; rfl
        · right
          exact ⟨sink, _, rfl, by simp [hs2, hc], fun h => by simp [hs2] at h,
            fun _ => ⟨w, h, rfl, rfl⟩⟩
    · left
      have hv2 : env.makeVectorizer (args.vectorizer.getD "poisson-disc".toList) = false := by
        simpa using hv
      refine ⟨Outcome.unknown_vectorizer, rfl, ?_⟩
      simp only [hv2, Bool.not_false, if_true]

theorem names_file_iff (p : Str) : names_file p = true ↔ (p ≠ [] ∧ p ≠ "-".toList) := by
  unfold names_file
  exact decide_eq_true_iff

/-- The output stage: a named output file is created or truncated before
the format dispatch; a failed open ends the run. -/
theorem main_open_out_cases (env : Env) (args : Args) (s : State) :
    (names_file (out_f_name args) = true ∧
      main_open_out env args s =
        (Outcome.cannot_open_output, s.log (Event.open_out (out_f_name args)))) ∨
    (names_file (out_f_name args) = true ∧
      main_open_out env args s =
        main_config env args ((s.log (Event.open_out (out_f_name args))).create
          (out_f_name args))) ∨
    (names_file (out_f_name args) = false ∧ main_open_out env args s = main_config env args s) := by
  unfold main_open_out
  by_cases h : out_f_name args ≠ [] ∧ out_f_name args ≠ "-".toList
  · have hn := (names_file_iff _).mpr h
    rw [if_pos h]
    by_cases hw : env.can_write (out_f_name args) = true
    · right; left
      refine ⟨hn, ?_⟩
      simp only [State.open_for_write, hw, Bool.not_true, Bool.false_eq_true, if_false, if_true]
    · have hw2 : env.can_write (out_f_name args) = false := by simpa using hw
      left
      refine ⟨hn, ?_⟩
      simp only [State.open_for_write, hw2, Bool.not_false, Bool.false_eq_true, if_false,
        if_true]
  · right; right
    have hn : names_file (out_f_name args) = false := by
      rw [← Bool.not_eq_true, names_file_iff]; exact h
    rw [if_neg h]
    exact ⟨hn, rfl⟩

/-- The input stage: a named input file is opened; a failed open ends the
run. -/
theorem main_open_in_cases (env : Env) (args : Args) (s : State) :
    (names_file (in_f_name args) = true ∧
      main_open_in env args s =
        (Outcome.cannot_open_input, s.log (Event.open_in (in_f_name args)))) ∨
    (names_file (in_f_name args) = true ∧
      main_open_in env args s =
        main_open_out env args (s.log (Event.open_in (in_f_name args)))) ∨
    (names_file (in_f_name args) = false ∧
      main_open_in env args s = main_open_out env args s) := by
  unfold main_open_in
  by_cases h : in_f_name args ≠ [] ∧ in_f_name args ≠ "-".toList
  · have hn := (names_file_iff _).mpr h
    rw [if_pos h]
    by_cases hr : env.can_read (in_f_name args) = true
    · right; left
      refine ⟨hn, ?_⟩
      simp only [hr, Bool.not_true, Bool.false_eq_true, if_false]
    · have hr2 : env.can_read (in_f_name args) = false := by simpa using hr
      left
      refine ⟨hn, ?_⟩
      simp only [hr2, Bool.not_false, if_true]
  · right; right
    have hn : names_file (in_f_name args) = false := by
      rw [← Bool.not_eq_true, names_file_iff]; exact h
    rw [if_neg h]
    exact ⟨hn, rfl⟩

/-- Up to the format dispatch, a run either stops early (help, version, or
a stream that cannot be opened) having created and removed nothing, or it
reaches the dispatch with both streams open. -/
theorem main_open_cases (env : Env) (args : Args) :
    (∃ o s, main env args = (o, s) ∧
      (o = Outcome.help ∨ o = Outcome.version ∨ o = Outcome.cannot_open_input ∨
        o = Outcome.cannot_open_output) ∧
      s.files = env.files ∧ (∀ e ∈ s.trace, e ∈ opens args)) ∨
    (∃ s, main env args = main_config env args s ∧ s.trace = opens args ∧
      s.files = files_after_opens env args) := by
  unfold main
  by_cases hh : args.help = true
  · left
    rw [if_pos hh]
    exact ⟨Outcome.help, ⟨env.files, []⟩, rfl, Or.inl rfl, rfl, by simp⟩
  rw [if_neg hh]
  by_cases hv : args.version = true
  · left
    rw [if_pos hv]
    exact ⟨Outcome.version, ⟨env.files, []⟩, rfl, Or.inr (Or.inl rfl), rfl, by simp⟩
  rw [if_neg hv]
  rcases main_open_in_cases env args ⟨env.files, []⟩ with ⟨hi, e⟩ | ⟨hi, e⟩ | ⟨hi, e⟩
  · left
    rw [e]
    exact ⟨_, _, rfl, Or.inr (Or.inr (Or.inl rfl)), rfl, by simp [State.log, opens, hi]⟩
  · rw [e]
    rcases main_open_out_cases env args
        ((⟨env.files, []⟩ : State).log (Event.open_in (in_f_name args))) with
      ⟨ho, e2⟩ | ⟨ho, e2⟩ | ⟨ho, e2⟩
    · left
      rw [e2]
      exact ⟨_, _, rfl, Or.inr (Or.inr (Or.inr rfl)), rfl, by simp [State.log, opens, hi, ho]⟩
    · right
      rw [e2]
      exact ⟨_, rfl, by simp [State.log, State.create, opens, hi, ho],
        by simp [State.log, State.create, files_after_opens, ho]⟩
    · right
      rw [e2]
      exact ⟨_, rfl, by simp [State.log, opens, hi, ho],
        by simp [State.log, files_after_opens, ho]⟩
  · rw [e]
    rcases main_open_out_cases env args (⟨env.files, []⟩ : State) with
      ⟨ho, e2⟩ | ⟨ho, e2⟩ | ⟨ho, e2⟩
    · left
      rw [e2]
      exact ⟨_, _, rfl, Or.inr (Or.inr (Or.inr rfl)), rfl, by simp [State.log, opens, hi, ho]⟩
    · right
      rw [e2]
      exact ⟨_, rfl, by simp [State.log, State.create, opens, hi, ho],
        by simp [State.log, State.create, files_after_opens, ho]⟩
    · right
      rw [e2]
      exact ⟨_, rfl, by simp [opens, hi, ho], by simp [files_after_opens, ho]⟩

theorem opens_kinds (args : Args) : ∀ e ∈ opens args,
    e = Event.open_in (in_f_name args) ∨ e = Event.open_out (out_f_name args) := by
  intro e he
  unfold opens at he
  split_ifs at he <;> simp at he <;> tauto

theorem opens_no_remove (args : Args) : (opens args).filter Event.is_remove = [] := by
  unfold opens
  split_ifs <;> simp [Event.is_remove]

theorem no_remove_of_subset_opens (args : Args) (l : List Event) (h : ∀ e ∈ l, e ∈ opens args) :
    l.filter Event.is_remove = [] := by
  rw [List.filter_eq_nil_iff]
  intro e he
  rcases opens_kinds args e (h e he) with h | h <;> simp [h, Event.is_remove]

/-- Every run is of one of three kinds: it stops before the format dispatch
having created nothing; it stops with a configuration error right after
the two streams were opened; or it stages its input in `barf` and continues
with the `usvg` stage. -/
theorem main_cases (env : Env) (args : Args) :
    (∃ o s, main env args = (o, s) ∧
      (o = Outcome.help ∨ o = Outcome.version ∨ o = Outcome.cannot_open_input ∨
        o = Outcome.cannot_open_output) ∧
      s.files = env.files ∧ (∀ e ∈ s.trace, e ∈ opens args)) ∨
    (∃ o, o.is_config_error = true ∧
      main env args = (o, ⟨files_after_opens env args, opens args⟩)) ∨
    (∃ (sink : Sink) (doc : Str) (s : State), resolveFormat args.ofmt = some sink ∧
      s.files = files_after_opens env args ∧ s.trace = opens args ∧
      main env args =
        main_usvg env args sink (is_svg (in_f_name args) args.force_svg args.force_png)
          (s.open_for_write env (barf env) (Event.write_temp (barf env) doc)) ∧
      (is_svg (in_f_name args) args.force_svg args.force_png = true → doc = env.input) ∧
      (is_svg (in_f_name args) args.force_svg args.force_png = false →
        ∃ w h, check_size args.size = Except.ok (w, h) ∧
          doc = raster_svg w h (par_attr args.preserve_aspect_ratio)
            (env.base64_encode env.input))) := by
  rcases main_open_cases env args with h | ⟨s, e, ht, hf⟩
  · exact Or.inl h
  · right
    rcases main_config_cases env args s with ⟨o, ho, e2⟩ | ⟨sink, doc, hfmt, e2, h1, h2⟩
    · left
      refine ⟨o, ho, ?_⟩
      rw [e, e2]
      cases s
      simp only at ht hf
      rw [ht, hf]
    · right
      exact ⟨sink, doc, s, hfmt, hf, ht, by rw [e, e2], h1, h2⟩

/-! ## Lemmas on `--size` -/

theorem find_first_of_sep_split (c : Char) (b : Str) (hc : is_size_sep c = true) :
    ∀ (a : Str), (∀ x ∈ a, is_size_sep x = false) →
      find_first_of_sep (a ++ c :: b) = some a.length := by
  intro a
  induction a with
  | nil => intro _; simp [find_first_of_sep, hc]
  | cons x xs ih =>
    intro h
    have hx : is_size_sep x = false := h x (by simp)
    have hxs : ∀ y ∈ xs, is_size_sep y = false := fun y hy => h y (by simp [hy])
    simp [find_first_of_sep, hx, ih hxs]

theorem find_first_of_sep_some :
    ∀ (s : Str) (pos : Nat), find_first_of_sep s = some pos →
      ∃ c, s = s.take pos ++ c :: s.drop (pos + 1) ∧ is_size_sep c = true ∧
        ∀ x ∈ s.take pos, is_size_sep x = false := by
  intro s
  induction s with
  | nil => intro pos h; simp [find_first_of_sep] at h
  | cons x xs ih =>
    intro pos h
    unfold find_first_of_sep at h
    by_cases hx : is_size_sep x = true
    · simp only [hx, if_true, Option.some.injEq] at h
      subst h
      exact ⟨x, by simp, hx, by simp⟩
    · have hx2 : is_size_sep x = false := by simpa using hx
      simp only [hx2, Bool.false_eq_true, if_false, Option.map_eq_some'] at h
      obtain ⟨q, hq, rfl⟩ := h
      obtain ⟨c, e, hc, hn⟩ := ih q hq
      refine ⟨c, ?_, hc, ?_⟩
      · simp only [List.take_succ_cons, List.drop_succ_cons, List.cons_append]
        rw [← e]
      · intro y hy
        simp only [List.take_succ_cons, List.mem_cons] at hy
        rcases hy with rfl | hy
        · exact hx2
        · exact hn y hy

/-- The validation succeeds with `(w, h)` exactly when the string splits at
its first separator into two texts whose `strtod` values are `w` and `h`,
neither of them less than 1. -/
theorem check_size_ok_iff (s : Str) (w h : Double) :
    check_size (some s) = Except.ok (w, h) ↔
      ∃ a c b, s = a ++ c :: b ∧ is_size_sep c = true ∧ (∀ x ∈ a, is_size_sep x = false) ∧
        w = strtod a ∧ h = strtod b ∧ w.ltOne = false ∧ h.ltOne = false := by
  constructor
  · intro hc
    unfold check_size at hc
    rcases hp : find_first_of_sep s with _ | pos
    · simp [hp] at hc
    · simp only [hp] at hc
      obtain ⟨c, e, hsep, hn⟩ := find_first_of_sep_some s pos hp
      by_cases hlt : ((strtod (s.take pos)).ltOne || (strtod (s.drop (pos + 1))).ltOne) = true
      · simp [hlt] at hc
      · simp only [hlt, Bool.false_eq_true, if_false, Except.ok.injEq, Prod.mk.injEq] at hc
        obtain ⟨rfl, rfl⟩ := hc
        simp only [Bool.or_eq_true, not_or, Bool.not_eq_true] at hlt
        exact ⟨s.take pos, c, s.drop (pos + 1), e, hsep, hn, rfl, rfl, hlt.1, hlt.2⟩
  · rintro ⟨a, c, b, rfl, hsep, hn, rfl, rfl, h1, h2⟩
    unfold check_size
    simp only [find_first_of_sep_split c b hsep a hn]
    simp [h1, h2]

theorem check_size_error (s : Str) :
    size_accepted s = true ∨ check_size (some s) = Except.error Outcome.size_form ∨
      check_size (some s) = Except.error Outcome.size_value := by
  unfold size_accepted check_size
  rcases hp : find_first_of_sep s with _ | pos
  · simp [hp]
  · by_cases hlt : ((strtod (s.take pos)).ltOne || (strtod (s.drop (pos + 1))).ltOne) = true
    · simp only [hp, hlt, if_true]; simp
    · simp only [hp, hlt, Bool.false_eq_true, if_false]; simp

theorem size_accepted_iff (s : Str) :
    size_accepted s = true ↔ ∃ w h, check_size (some s) = Except.ok (w, h) := by
  unfold size_accepted
  rcases hc : check_size (some s) with o | ⟨w, h⟩
  · simp
  · simp

/-! ## The claims -/

/-- Claim C1: format resolution succeeds exactly for the lower-cased values
`svg`, `gerber`, `gbr` and `grb`, matched case-insensitively; the value
`s-exp`, which the help text of `--format` lists as supported, is not among
them and ends the run with the unknown-format error and exit status 1. -/
theorem C1_format_resolution :
    (∀ f : Str, (resolveFormat (some f)).isSome = true ↔
      lowercase f ∈ ["svg".toList, "gerber".toList, "gbr".toList, "grb".toList]) ∧
    resolveFormat (some "SVG".toList) = some Sink.SimpleSVGOutput ∧
    resolveFormat (some "Gerber".toList) = some Sink.SimpleGerberOutput ∧
    resolveFormat (some "s-exp".toList) = none ∧
    resolveFormat (some "S-EXP".toList) = none ∧
    (∀ (env : Env) (s : State),
      main_config env { args_none with ofmt := some "s-exp".toList } s =
        (Outcome.unknown_format, s)) ∧
    Outcome.unknown_format.exit_code = 1 := by
  refine ⟨?_, by decide, by decide, by decide, by decide, ?_, rfl⟩
  · intro f
    unfold resolveFormat selectSink
    simp only [Option.getD_some]
    by_cases h1 : lowercase f = "svg".toList
    · simp [h1]
    · by_cases h2 : lowercase f = "gbr".toList ∨ lowercase f = "grb".toList ∨
          lowercase f = "gerber".toList
      · simp only [h1, h2, if_true, if_false, Option.isSome_some, true_iff]
        simp only [List.mem_cons, List.mem_singleton, List.mem_nil_iff, or_false]
        tauto
      · simp only [h1, h2, if_false, Option.isSome_none, Bool.false_eq_true, false_iff]
        simp only [List.mem_cons, List.mem_singleton, List.mem_nil_iff, or_false]
        tauto
  · intro env s
    have h : resolveFormat (some "s-exp".toList) = none := by decide
    simp only [main_config, h]

/-- Claim C2, refuted as stated: the run `--format dxf photo.png out.gbr`
ends with the unknown-format error and exit status 1, yet the output file
`out.gbr`, absent before the run, has been opened for writing and exists
when the error is reported. -/
theorem C2_counterexample :
    (main env_demo args_dxf).1 = Outcome.unknown_format ∧
    (main env_demo args_dxf).1.exit_code = 1 ∧
    "out.gbr".toList ∉ env_demo.files ∧
    "out.gbr".toList ∈ (main env_demo args_dxf).2.files ∧
    Event.open_out "out.gbr".toList ∈ (main env_demo args_dxf).2.trace := by
  decide

/-- Claim C2, amended: a run that ends in a configuration error exits with
status 1, and what it has done by then is exactly to open the named input
file and to open (create or truncate) the named output file: the files
that exist are those of the start plus the output file, and nothing has
been staged, started or removed. -/
theorem C2_config_error_after_opens (env : Env) (args : Args)
    (h : (main env args).1.is_config_error = true) :
    (main env args).1.exit_code = 1 ∧
    (main env args).2.trace = opens args ∧
    (main env args).2.files = files_after_opens env args ∧
    (names_file (out_f_name args) = true →
      Event.open_out (out_f_name args) ∈ (main env args).2.trace ∧
      out_f_name args ∈ (main env args).2.files) := by
  rcases main_cases env args with ⟨o, s, e, ho, -, -⟩ | ⟨o, ho, e⟩ |
    ⟨sink, doc, s, -, -, -, e, -, -⟩
  · rw [e] at h
    rcases ho with rfl | rfl | rfl | rfl <;> simp [Outcome.is_config_error] at h
  · rw [e]
    refine ⟨?_, rfl, rfl, ?_⟩
    · cases o <;> simp [Outcome.is_config_error] at ho <;> rfl
    · intro hn
      constructor
      · simp [opens, hn]
      · simp only [files_after_opens, hn, if_true]
        split_ifs with hm
        · exact hm
        · simp
  · rw [e, main_usvg_not_config] at h
    simp at h

/-- Witness of `C2_config_error_after_opens`: the run `--format dxf
photo.png out.gbr`. -/
theorem C2_config_error_after_opens_witness :
    (main env_demo args_dxf).1.exit_code = 1 ∧
    (main env_demo args_dxf).2.trace = opens args_dxf ∧
    (main env_demo args_dxf).2.files = files_after_opens env_demo args_dxf ∧
    (names_file (out_f_name args_dxf) = true →
      Event.open_out (out_f_name args_dxf) ∈ (main env_demo args_dxf).2.trace ∧
      out_f_name args_dxf ∈ (main env_demo args_dxf).2.files) :=
  C2_config_error_after_opens env_demo args_dxf (by decide)

/-- Claim C3, refuted as stated: a successful run on the vector input
`drawing.svg` leaves both staged files on disk, and a raster run in which
`usvg` exits with status 1 leaves the staged file `barf` on disk. -/
theorem C3_counterexample :
    (main env_vector args_vector).1 = Outcome.success ∧
    barf env_vector ∉ env_vector.files ∧
    barf env_vector ∈ (main env_vector args_vector).2.files ∧
    frob env_vector args_vector ∈ (main env_vector args_vector).2.files ∧
    (main env_usvg_fails (args_raster "50x30")).1 = Outcome.usvg_exit ∧
    barf env_usvg_fails ∈ (main env_usvg_fails (args_raster "50x30")).2.files := by
  decide

/-- Claim C3, amended: after a successful run on raster input neither the
pre-normalization staged file nor the normalized staged file exists; a
successful run on vector input removes nothing, so the staged file it
created is still there. -/
theorem C3_cleanup_on_success (env : Env) (args : Args)
    (h : (main env args).1 = Outcome.success) :
    (is_svg (in_f_name args) args.force_svg args.force_png = false →
      barf env ∉ (main env args).2.files ∧ frob env args ∉ (main env args).2.files) ∧
    (is_svg (in_f_name args) args.force_svg args.force_png = true →
      (main env args).2.trace.filter Event.is_remove = [] ∧
      (env.can_write (barf env) = true → barf env ∈ (main env args).2.files)) := by
  rcases main_cases env args with ⟨o, s, e, ho, -, -⟩ | ⟨o, ho, e⟩ |
    ⟨sink, doc, s, -, -, ht, e, -, -⟩
  · rw [e] at h
    rcases ho with rfl | rfl | rfl | rfl <;> simp at h
  · rw [e] at h
    simp only at h
    rw [h] at ho
    simp [Outcome.is_config_error] at ho
  · rw [e] at h ⊢
    constructor
    · intro hr
      rw [hr] at h ⊢
      exact main_usvg_raster_files _ _ _ _ h
    · intro hv
      rw [hv] at h ⊢
      constructor
      · rw [main_usvg_removes]
        have : (s.open_for_write env (barf env) (Event.write_temp (barf env) doc)).trace.filter
            Event.is_remove = [] := by
          unfold State.open_for_write
          split_ifs <;> simp [State.log, State.create, ht, opens_no_remove, Event.is_remove]
        simp [this]
      · intro hw
        apply main_usvg_files_vector
        simp only [State.open_for_write, hw, if_true, State.create, State.log]
        split_ifs with hm
        · exact hm
        · simp

/-- Witness of `C3_cleanup_on_success`: the successful raster run
`--size 50x30 photo.png` leaves neither staged file behind. -/
theorem C3_cleanup_on_success_witness :
    barf env_demo ∉ (main env_demo (args_raster "50x30")).2.files ∧
    frob env_demo (args_raster "50x30") ∉ (main env_demo (args_raster "50x30")).2.files :=
  (C3_cleanup_on_success env_demo (args_raster "50x30") (by decide)).1 (by decide)

/-- Claim C4, refuted as stated: the strings `5x5x5` and `5x5mm` get past
the size validation (the run on `5x5x5` even ends in success), although
neither has the form of two complete numbers around one separator. -/
theorem C4_counterexample :
    check_size (some "5x5x5".toList) = Except.ok (strtod "5".toList, strtod "5x5".toList) ∧
    size_shape "5x5x5".toList = false ∧
    check_size (some "5x5mm".toList) = Except.ok (strtod "5".toList, strtod "5mm".toList) ∧
    size_shape "5x5mm".toList = false ∧
    (main env_demo (args_raster "5x5x5")).1 = Outcome.success := by
  refine ⟨?_, by decide, ?_, by decide, by decide⟩
  · exact (check_size_ok_iff _ _ _).mpr
      ⟨"5".toList, 'x', "5x5".toList, rfl, rfl, by decide, rfl, rfl, by decide, by decide⟩
  · exact (check_size_ok_iff _ _ _).mpr
      ⟨"5".toList, 'x', "5mm".toList, rfl, rfl, by decide, rfl, rfl, by decide, by decide⟩

/-- Claim C4, amended: a `--size` string gets past the validation exactly
when it holds a separator `x`, `*` or `,` and, split at the first one, the
number `strtod` reads at the start of the text before it and the number it
reads at the start of the text after it are both not less than 1; text that
follows such a number, further separators included, is ignored. Every other
string ends the run with the size-form or the size-value configuration
error, exit status 1. -/
theorem C4_size_validation (s : Str) :
    (size_accepted s = true ↔
      ∃ a c b, s = a ++ c :: b ∧ is_size_sep c = true ∧ (∀ x ∈ a, is_size_sep x = false) ∧
        (strtod a).ltOne = false ∧ (strtod b).ltOne = false) ∧
    (size_accepted s = true ∨ check_size (some s) = Except.error Outcome.size_form ∨
      check_size (some s) = Except.error Outcome.size_value) ∧
    Outcome.size_form.is_config_error = true ∧ Outcome.size_form.exit_code = 1 ∧
    Outcome.size_value.is_config_error = true ∧ Outcome.size_value.exit_code = 1 := by
  refine ⟨?_, check_size_error s, rfl, rfl, rfl, rfl⟩
  rw [size_accepted_iff]
  constructor
  · rintro ⟨w, h, hc⟩
    obtain ⟨a, c, b, e, hsep, hn, rfl, rfl, h1, h2⟩ := (check_size_ok_iff s w h).mp hc
    exact ⟨a, c, b, e, hsep, hn, h1, h2⟩
  · rintro ⟨a, c, b, e, hsep, hn, h1, h2⟩
    exact ⟨strtod a, strtod b,
      (check_size_ok_iff s _ _).mpr ⟨a, c, b, e, hsep, hn, rfl, rfl, h1, h2⟩⟩

/-- Witness of `C4_size_validation`: the string `12.34x56.78` is accepted
and splits as the theorem says. -/
theorem C4_size_validation_witness :
    size_accepted "12.34x56.78".toList = true ∧
    ∃ a c b, "12.34x56.78".toList = a ++ c :: b ∧ is_size_sep c = true ∧
      (∀ x ∈ a, is_size_sep x = false) ∧
      (strtod a).ltOne = false ∧ (strtod b).ltOne = false :=
  ⟨by decide, (C4_size_validation "12.34x56.78".toList).1.mp (by decide)⟩

/-- Claim C5, refuted as stated: for the string `,` the result of `id_match`
is non-empty and its last element is the empty string; the same holds for
`a,,`. -/
theorem C5_counterexample :
    id_match ",".toList [] = some [[]] ∧
    id_match "a,,".toList [] = some ["a".toList, []] := by
  decide

/-- Claim C5, amended: `id_match` always returns; the last element of its
result is the empty string exactly when the input is `,` or ends in two
commas (the empty token of one trailing comma is dropped, that of a second
one is kept); and for the empty string the result is the empty list. -/
theorem C5_id_match_last_token :
    (∀ s : Str, ∃ r, id_match s [] = some r ∧
      (r.getLast? = some [] ↔ (s = [','] ∨ ∃ t, s = t ++ [',', ',']))) ∧
    id_match [] [] = some [] := by
  refine ⟨?_, by decide⟩
  intro s
  refine ⟨_, id_match_eq s, ?_⟩
  rcases List.eq_nil_or_concat s with h | ⟨u, c, h⟩
  · subst h
    simp [drop_final_empty, split_at_commas]
  · rw [List.concat_eq_append] at h
    subst h
    by_cases hc : c = ','
    · subst hc
      have hd : drop_final_empty (split_at_commas (u ++ [','])) = split_at_commas u := by
        rw [split_at_commas_concat_comma]
        simp [drop_final_empty]
      rw [hd, split_at_commas_last_empty]
      constructor
      · rintro (h | ⟨v, h⟩)
        · left; simp [h]
        · right; exact ⟨v, by rw [h]; simp⟩
      · rintro (h | ⟨t, h⟩)
        · left
          have := congrArg List.length h
          simp at this
          exact this
        · right
          refine ⟨t, ?_⟩
          have h2 : u ++ [','] = (t ++ [',']) ++ [','] := by rw [h]; simp
          exact List.append_cancel_right h2
    · have hl := split_at_commas_concat_other c hc u
      have hd : drop_final_empty (split_at_commas (u ++ [c])) = split_at_commas (u ++ [c]) := by
        simp [drop_final_empty, hl]
      rw [hd]
      constructor
      · intro h; exact absurd h hl
      · rintro (h | ⟨t, h⟩)
        · have h2 : u ++ [c] = [] ++ [','] := by rw [h]; rfl
          have := List.append_inj_right' h2 rfl
          simp at this
          exact absurd this hc
        · have h2 : u ++ [c] = (t ++ [',']) ++ [','] := by rw [h]; simp
          have := List.append_inj_right' h2 rfl
          simp at this
          exact absurd this hc

/-- Claim C6, refuted as stated: `a, b, c` is parsed into the identifiers
`a`, ` b` and ` c` with their leading blanks, so `b` is not in the result,
whereas it is in the result for `a,b,c`. -/
theorem C6_counterexample :
    id_match "a, b, c".toList [] = some ["a".toList, " b".toList, " c".toList] ∧
    id_match "a,b,c".toList [] = some ["a".toList, "b".toList, "c".toList] ∧
    "b".toList ∉ ["a".toList, " b".toList, " c".toList] ∧
    id_match " a,b,c ".toList [] = some [" a".toList, "b".toList, "c ".toList] := by
  decide

/-- Claim C6, amended: one trailing comma makes no difference (a string
that ends in a character other than a comma gives the same list with and
without a comma appended); no character is trimmed, since joining the
result with commas gives back the input, less one trailing comma; and the
empty string gives the empty list. -/
theorem C6_trailing_comma (u : Str) (c : Char) (hc : c ≠ ',') :
    id_match (u ++ [c] ++ [',']) [] = id_match (u ++ [c]) [] ∧
    (∀ s : Str, ∃ r, id_match s [] = some r ∧
      [','].intercalate r = if s.getLast? = some ',' then s.dropLast else s) ∧
    id_match [] [] = some [] := by
  have hl := split_at_commas_concat_other c hc u
  refine ⟨?_, ?_, by decide⟩
  · rw [id_match_eq, id_match_eq, split_at_commas_concat_comma]
    simp [drop_final_empty, hl]
  · intro s
    refine ⟨_, id_match_eq s, ?_⟩
    rcases List.eq_nil_or_concat s with h | ⟨v, d, h⟩
    · subst h
      simp [drop_final_empty, split_at_commas, List.intercalate]
    · rw [List.concat_eq_append] at h
      subst h
      by_cases hd : d = ','
      · subst hd
        rw [split_at_commas_concat_comma]
        have h1 : drop_final_empty (split_at_commas v ++ [[]]) = split_at_commas v := by
          simp [drop_final_empty]
        rw [h1]
        simp [split_at_commas, List.intercalate_splitOn]
      · have hl2 := split_at_commas_concat_other d hd v
        simp only [drop_final_empty, hl2, if_false]
        simp [split_at_commas, List.intercalate_splitOn, hd]

/-- Witness of `C6_trailing_comma`: `a,b,c,` and `a,b,c` give the same
list. -/
theorem C6_trailing_comma_witness :
    id_match ("a,b".toList ++ ['c'] ++ [',']) [] = id_match ("a,b".toList ++ ['c']) [] :=
  (C6_trailing_comma "a,b".toList 'c' (by decide)).1

/-- A character in the range `A`..`Z` is `Char.ofNat` of its code. -/
theorem upper_char_cases (c : Char) (h : 'A'.toNat ≤ c.toNat ∧ c.toNat ≤ 'Z'.toNat) :
    ∃ k, 65 ≤ k ∧ k ≤ 90 ∧ c = Char.ofNat k :=
  ⟨c.toNat, h.1, h.2, (Char.ofNat_toNat c).symm⟩

theorem tolower_of_not_upper (c : Char) (h : ¬('A'.toNat ≤ c.toNat ∧ c.toNat ≤ 'Z'.toNat)) :
    tolower c = c := by
  unfold tolower
  rw [if_neg h]

theorem tolower_eq_s (c : Char) : tolower c = 's' ↔ c = 's' ∨ c = 'S' := by
  by_cases h : 'A'.toNat ≤ c.toNat ∧ c.toNat ≤ 'Z'.toNat
  · obtain ⟨k, h1, h2, rfl⟩ := upper_char_cases c h
    interval_cases k <;> decide
  · rw [tolower_of_not_upper c h]
    constructor
    · exact Or.inl
    · rintro (e | e)
      · exact e
      · subst e; exact absurd (by decide) h

theorem tolower_eq_v (c : Char) : tolower c = 'v' ↔ c = 'v' ∨ c = 'V' := by
  by_cases h : 'A'.toNat ≤ c.toNat ∧ c.toNat ≤ 'Z'.toNat
  · obtain ⟨k, h1, h2, rfl⟩ := upper_char_cases c h
    interval_cases k <;> decide
  · rw [tolower_of_not_upper c h]
    constructor
    · exact Or.inl
    · rintro (e | e)
      · exact e
      · subst e; exact absurd (by decide) h

theorem tolower_eq_g (c : Char) : tolower c = 'g' ↔ c = 'g' ∨ c = 'G' := by
  by_cases h : 'A'.toNat ≤ c.toNat ∧ c.toNat ≤ 'Z'.toNat
  · obtain ⟨k, h1, h2, rfl⟩ := upper_char_cases c h
    interval_cases k <;> decide
  · rw [tolower_of_not_upper c h]
    constructor
    · exact Or.inl
    · rintro (e | e)
      · exact e
      · subst e; exact absurd (by decide) h

/-- The lower-cased text from a `.` on is `.svg` exactly when three letters
follow the `.`: `s` or `S`, `v` or `V`, `g` or `G`. -/
theorem lowercase_dot_eq_svg (suf : Str) :
    lowercase ('.' :: suf) = ".svg".toList ↔
      ∃ c1 c2 c3, suf = [c1, c2, c3] ∧ (c1 = 's' ∨ c1 = 'S') ∧ (c2 = 'v' ∨ c2 = 'V') ∧
        (c3 = 'g' ∨ c3 = 'G') := by
  have hdot : tolower '.' = '.' := by decide
  have hsvg : ".svg".toList = ['.', 's', 'v', 'g'] := rfl
  rw [hsvg]
  unfold lowercase
  constructor
  · intro h
    match suf, h with
    | [c1, c2, c3], h =>
      simp only [List.map_cons, List.map_nil, List.cons.injEq, and_true] at h
      exact ⟨c1, c2, c3, rfl, (tolower_eq_s c1).mp h.2.1, (tolower_eq_v c2).mp h.2.2.1,
        (tolower_eq_g c3).mp h.2.2.2⟩
    | [], h => simp at h
    | [_], h => simp at h
    | [_, _], h => simp at h
    | _ :: _ :: _ :: _ :: _, h => simp at h
  · rintro ⟨c1, c2, c3, rfl, h1, h2, h3⟩
    simp only [List.map_cons, List.map_nil, hdot, (tolower_eq_s c1).mpr h1,
      (tolower_eq_v c2).mpr h2, (tolower_eq_g c3).mpr h3]

/-- Claim C7: the input is treated as a vector document exactly when
`--force-svg` is set, or `--force-png` is not set and the part of the file
name from its last `.` on equals `.svg` up to letter case, that is, the name
ends in a `.` followed by `s` or `S`, `v` or `V`, `g` or `G`; so
`DRAWING.SVG` and `a.SvG` are vector, and an absent name, the name `-`, a
name without `.` and a name such as `a.svg.png` or `a.svgz` are raster
unless `--force-svg` is given. -/
theorem C7_input_kind (n : Str) (force_svg force_png : Bool) :
    (is_svg n force_svg force_png = true ↔
      (force_svg = true ∨ (force_png = false ∧
        ∃ pre suf, n = pre ++ '.' :: suf ∧ '.' ∉ suf ∧
          lowercase ('.' :: suf) = lowercase ".svg".toList))) ∧
    is_svg [] false force_png = false ∧
    is_svg "-".toList false force_png = false ∧
    ('.' ∉ n → is_svg n false force_png = false) ∧
    (is_svg n force_svg force_png = true ↔
      (force_svg = true ∨ (force_png = false ∧
        ∃ pre c1 c2 c3, n = pre ++ ['.', c1, c2, c3] ∧ (c1 = 's' ∨ c1 = 'S') ∧
          (c2 = 'v' ∨ c2 = 'V') ∧ (c3 = 'g' ∨ c3 = 'G')))) ∧
    is_svg "DRAWING.SVG".toList false false = true ∧
    is_svg "a.SvG".toList false false = true ∧
    is_svg "drawing.svg".toList false false = true ∧
    is_svg "DRAWING.SVG".toList false true = false ∧
    is_svg "photo.png".toList true true = true ∧
    is_svg "a.svg.png".toList false false = false ∧
    is_svg "a.svgz".toList false false = false ∧
    is_svg "svg".toList false false = false := by
  have hlow : lowercase ".svg".toList = ".svg".toList := by decide
  have hend : ending n = ".svg".toList ↔
      ∃ pre suf, n = pre ++ '.' :: suf ∧ '.' ∉ suf ∧
        lowercase ('.' :: suf) = lowercase ".svg".toList := by
    rw [hlow]
    constructor
    · intro h
      by_cases hdot : '.' ∈ n
      · obtain ⟨pre, suf, e, hs⟩ := exists_last_dot n hdot
        refine ⟨pre, suf, e, hs, ?_⟩
        rw [← ending_of_split pre suf hs, ← e]
        exact h
      · rw [ending_of_no_dot n hdot] at h
        exact absurd h (by decide)
    · rintro ⟨pre, suf, e, hs, hl⟩
      rw [e, ending_of_split pre suf hs]
      exact hl
  have hletters : (∃ pre suf, n = pre ++ '.' :: suf ∧ '.' ∉ suf ∧
        lowercase ('.' :: suf) = lowercase ".svg".toList) ↔
      ∃ pre c1 c2 c3, n = pre ++ ['.', c1, c2, c3] ∧ (c1 = 's' ∨ c1 = 'S') ∧
        (c2 = 'v' ∨ c2 = 'V') ∧ (c3 = 'g' ∨ c3 = 'G') := by
    rw [hlow]
    constructor
    · rintro ⟨pre, suf, e, -, hl⟩
      obtain ⟨c1, c2, c3, rfl, h1, h2, h3⟩ := (lowercase_dot_eq_svg suf).mp hl
      exact ⟨pre, c1, c2, c3, e, h1, h2, h3⟩
    · rintro ⟨pre, c1, c2, c3, e, h1, h2, h3⟩
      refine ⟨pre, [c1, c2, c3], e, ?_, (lowercase_dot_eq_svg _).mpr ⟨c1, c2, c3, rfl, h1, h2, h3⟩⟩
      rcases h1 with rfl | rfl <;> rcases h2 with rfl | rfl <;> rcases h3 with rfl | rfl <;>
        decide
  have hfirst : is_svg n force_svg force_png = true ↔
      (force_svg = true ∨ (force_png = false ∧
        ∃ pre suf, n = pre ++ '.' :: suf ∧ '.' ∉ suf ∧
          lowercase ('.' :: suf) = lowercase ".svg".toList)) := by
    unfold is_svg
    rw [← hend]
    cases force_svg <;> cases force_png <;> simp
  refine ⟨hfirst, ?_, ?_, ?_, ?_, by decide, by decide, by decide, by decide, by decide,
    by decide, by decide, by decide⟩
  · simp [is_svg, ending, rfindDot]
  · cases force_png <;> decide
  · intro h
    simp [is_svg, ending_of_no_dot n h]
  · rw [hfirst, hletters]

/-- Witness of `C7_input_kind`: the name `DRAWING.SVG` ends in a `.`
followed by `S`, `V`, `G` and is vector without any flag; the name `photo`
has no `.` and is raster. -/
theorem C7_input_kind_witness :
    is_svg "DRAWING.SVG".toList false false = true ∧
    is_svg "photo".toList false false = false :=
  ⟨(C7_input_kind "DRAWING.SVG".toList false false).2.2.2.2.1.mpr
      (Or.inr ⟨rfl, "DRAWING".toList, 'S', 'V', 'G', rfl, Or.inr rfl, Or.inr rfl, Or.inr rfl⟩),
    (C7_input_kind "photo".toList false false).2.2.2.1 (by decide)⟩

/-- Claim C8, refuted as stated: for `--size 1234567x1` the staged document
declares the width `1.23457e+06mm`, and that number is not the width
1234567 given on the command line. -/
theorem C8_counterexample :
    Event.write_temp (barf env_demo)
      ("<svg width=\"1.23457e+06mm\" height=\"1mm\" viewBox=\"0 0 1.23457e+06 1\" ".toList ++
        "xmlns=\"http://www.w3.org/2000/svg\" ".toList ++
        "xmlns:xlink=\"http://www.w3.org/1999/xlink\">\n".toList ++
        "<image width=\"1.23457e+06\" height=\"1\" x=\"0\" y=\"0\" ".toList ++
        "preserveAspectRatio=\"none\" xlink:href=\"data:image/png;base64,UE5H\"/>\n".toList ++
        "</svg>\n".toList)
      ∈ (main env_demo (args_raster "1234567x1")).2.trace ∧
    strtod "1.23457e+06".toList ≠ strtod "1234567".toList := by
  decide!

/-- Claim C8, amended: a raster run that gets past the validation has a
`--size` of the form text, separator, text, and stages in `barf` a document
whose `width` and `height` attributes are the stream renderings (six
significant digits) of the two numbers read from those texts, followed by
`mm`, whose `viewBox` is `0 0` followed by the same two renderings, and whose
single `image` element carries the same two renderings as `width` and
`height`, at `x` 0 and `y` 0. -/
theorem C8_raster_envelope (env : Env) (args : Args)
    (hr : is_svg (in_f_name args) args.force_svg args.force_png = false)
    (hs : (main env args).1.staged = true) :
    ∃ a c b, args.size = some (a ++ c :: b) ∧ is_size_sep c = true ∧
      (∀ x ∈ a, is_size_sep x = false) ∧
      (strtod a).ltOne = false ∧ (strtod b).ltOne = false ∧
      Event.write_temp (barf env)
        ("<svg width=\"".toList ++ (strtod a).put ++ "mm\" height=\"".toList ++ (strtod b).put
          ++ "mm\" viewBox=\"0 0 ".toList ++ (strtod a).put ++ " ".toList ++ (strtod b).put
          ++ "\" xmlns=\"http://www.w3.org/2000/svg\" ".toList
          ++ "xmlns:xlink=\"http://www.w3.org/1999/xlink\">\n".toList
          ++ "<image width=\"".toList ++ (strtod a).put ++ "\" height=\"".toList
          ++ (strtod b).put ++ "\" x=\"0\" y=\"0\" preserveAspectRatio=\"".toList
          ++ par_attr args.preserve_aspect_ratio
          ++ "\" xlink:href=\"data:image/png;base64,".toList
          ++ env.base64_encode env.input ++ "\"/>\n</svg>\n".toList)
        ∈ (main env args).2.trace := by
  rcases main_cases env args with ⟨o, s, e, ho, -, -⟩ | ⟨o, ho, e⟩ |
    ⟨sink, doc, s, -, -, -, e, -, h2⟩
  · rw [e] at hs
    rcases ho with rfl | rfl | rfl | rfl <;> simp [Outcome.staged] at hs
  · rw [e] at hs
    cases o <;> simp [Outcome.is_config_error] at ho <;> simp [Outcome.staged] at hs
  · obtain ⟨w, h, hc, hdoc⟩ := h2 hr
    rcases hsz : args.size with _ | sz
    · rw [hsz] at hc; simp [check_size] at hc
    · rw [hsz] at hc
      obtain ⟨a, c, b, e2, hsep, hn, rfl, rfl, h1, h2⟩ := (check_size_ok_iff sz w h).mp hc
      refine ⟨a, c, b, by rw [e2], hsep, hn, h1, h2, ?_⟩
      rw [e]
      apply main_usvg_trace_mono
      have hmem : Event.write_temp (barf env) doc ∈
          (s.open_for_write env (barf env) (Event.write_temp (barf env) doc)).trace := by
        unfold State.open_for_write
        split_ifs <;> simp [State.log, State.create]
      have hd : doc = "<svg width=\"".toList ++ (strtod a).put ++ "mm\" height=\"".toList
          ++ (strtod b).put
          ++ "mm\" viewBox=\"0 0 ".toList ++ (strtod a).put ++ " ".toList ++ (strtod b).put
          ++ "\" xmlns=\"http://www.w3.org/2000/svg\" ".toList
          ++ "xmlns:xlink=\"http://www.w3.org/1999/xlink\">\n".toList
          ++ "<image width=\"".toList ++ (strtod a).put ++ "\" height=\"".toList
          ++ (strtod b).put ++ "\" x=\"0\" y=\"0\" preserveAspectRatio=\"".toList
          ++ par_attr args.preserve_aspect_ratio
          ++ "\" xlink:href=\"data:image/png;base64,".toList
          ++ env.base64_encode env.input ++ "\"/>\n</svg>\n".toList := by
        rw [hdoc]
        unfold raster_svg
        simp only [List.append_assoc]
        rfl
      rw [← hd]
      exact hmem

/-- Witness of `C8_raster_envelope`: the run `--size 50x30 photo.png`. -/
theorem C8_raster_envelope_witness :
    ∃ a c b, (args_raster "50x30").size = some (a ++ c :: b) ∧ is_size_sep c = true ∧
      (∀ x ∈ a, is_size_sep x = false) ∧
      (strtod a).ltOne = false ∧ (strtod b).ltOne = false ∧
      Event.write_temp (barf env_demo)
        ("<svg width=\"".toList ++ (strtod a).put ++ "mm\" height=\"".toList ++ (strtod b).put
          ++ "mm\" viewBox=\"0 0 ".toList ++ (strtod a).put ++ " ".toList ++ (strtod b).put
          ++ "\" xmlns=\"http://www.w3.org/2000/svg\" ".toList
          ++ "xmlns:xlink=\"http://www.w3.org/1999/xlink\">\n".toList
          ++ "<image width=\"".toList ++ (strtod a).put ++ "\" height=\"".toList
          ++ (strtod b).put ++ "\" x=\"0\" y=\"0\" preserveAspectRatio=\"".toList
          ++ par_attr (args_raster "50x30").preserve_aspect_ratio
          ++ "\" xlink:href=\"data:image/png;base64,".toList
          ++ env_demo.base64_encode env_demo.input ++ "\"/>\n</svg>\n".toList)
        ∈ (main env_demo (args_raster "50x30")).2.trace :=
  C8_raster_envelope env_demo (args_raster "50x30") (by decide) (by decide)

/-- Claim C9, refuted as stated: the successful raster run `--no-usvg
--size 50x30 photo.png` issues the removal of the one staged path twice. -/
theorem C9_counterexample :
    (main env_demo args_skip).1 = Outcome.success ∧
    frob env_demo args_skip = barf env_demo ∧
    (main env_demo args_skip).2.trace.filter Event.is_remove =
      [Event.remove (barf env_demo), Event.remove (barf env_demo)] ∧
    (main env_demo args_skip).2.trace.count (Event.remove (barf env_demo)) = 2 := by
  decide

/-- Claim C9, amended: in a run with `--no-usvg` the normalized staged path
is the pre-normalization staged path, no subprocess is started and only
that path is loaded; the clean-up of a successful raster run issues the
removal of that path twice, once as `frob` and once as `barf`, and every
other run issues no removal. -/
theorem C9_skip_usvg (env : Env) (args : Args) (h : args.skip_usvg = true) :
    frob env args = barf env ∧
    (∀ p, Event.load p ∈ (main env args).2.trace → p = barf env) ∧
    (∀ a b, Event.subprocess a b ∉ (main env args).2.trace) ∧
    (main env args).2.trace.filter Event.is_remove =
      (if (main env args).1 = Outcome.success ∧
          is_svg (in_f_name args) args.force_svg args.force_png = false then
        [Event.remove (barf env), Event.remove (barf env)] else []) := by
  have hf : frob env args = barf env := by simp [frob, h]
  have hkinds : ∀ e ∈ (main env args).2.trace,
      (e = Event.open_in (in_f_name args) ∨ e = Event.open_out (out_f_name args)) ∨
      (∃ doc, e = Event.write_temp (barf env) doc) ∨ e = Event.load (barf env) ∨
      (∃ sink, e = Event.render sink args.flatten (selection args.only_groups)
        (selection args.exclude_groups)) ∨
      e = Event.remove (barf env) := by
    intro e he
    rcases main_cases env args with ⟨o, s, e1, -, -, ht⟩ | ⟨o, -, e1⟩ |
      ⟨sink, doc, s, -, -, ht, e1, -, -⟩
    · rw [e1] at he
      exact Or.inl (opens_kinds args e (ht e he))
    · rw [e1] at he
      exact Or.inl (opens_kinds args e he)
    · rw [e1] at he
      rcases main_usvg_skip_new_actions env args sink _ _ h e he with h1 | h1 | h1 | h1
      · have : e ∈ opens args ∨ e = Event.write_temp (barf env) doc := by
          unfold State.open_for_write at h1
          split_ifs at h1 <;> simpa [State.log, State.create, ht] using h1
        rcases this with h2 | h2
        · exact Or.inl (opens_kinds args e h2)
        · exact Or.inr (Or.inl ⟨doc, h2⟩)
      · exact Or.inr (Or.inr (Or.inl h1))
      · exact Or.inr (Or.inr (Or.inr (Or.inl ⟨sink, h1⟩)))
      · exact Or.inr (Or.inr (Or.inr (Or.inr h1)))
  refine ⟨hf, ?_, ?_, ?_⟩
  · intro p hp
    rcases hkinds _ hp with (h1 | h1) | ⟨d, h1⟩ | h1 | ⟨k, h1⟩ | h1 <;> simp at h1
    exact h1
  · intro a b hp
    rcases hkinds _ hp with (h1 | h1) | ⟨d, h1⟩ | h1 | ⟨k, h1⟩ | h1 <;> simp at h1
  · rcases main_cases env args with ⟨o, s, e1, ho, -, ht⟩ | ⟨o, ho, e1⟩ |
      ⟨sink, doc, s, -, -, ht, e1, -, -⟩
    · rw [e1]
      have hne : o ≠ Outcome.success := by rcases ho with rfl | rfl | rfl | rfl <;> simp
      simp [hne, no_remove_of_subset_opens args s.trace ht]
    · rw [e1]
      have hne : o ≠ Outcome.success := by
        intro h2; rw [h2] at ho; simp [Outcome.is_config_error] at ho
      simp [hne, opens_no_remove]
    · rw [e1, main_usvg_removes, hf]
      have : (s.open_for_write env (barf env) (Event.write_temp (barf env) doc)).trace.filter
          Event.is_remove = [] := by
        unfold State.open_for_write
        split_ifs <;> simp [State.log, State.create, ht, opens_no_remove, Event.is_remove]
      rw [this]
      simp

/-- Witness of `C9_skip_usvg`: the run `--no-usvg --size 50x30 photo.png`. -/
theorem C9_skip_usvg_witness :
    frob env_demo args_skip = barf env_demo ∧
    (∀ p, Event.load p ∈ (main env_demo args_skip).2.trace → p = barf env_demo) ∧
    (∀ a b, Event.subprocess a b ∉ (main env_demo args_skip).2.trace) ∧
    (main env_demo args_skip).2.trace.filter Event.is_remove =
      (if (main env_demo args_skip).1 = Outcome.success ∧
          is_svg (in_f_name args_skip) args_skip.force_svg args_skip.force_png = false then
        [Event.remove (barf env_demo), Event.remove (barf env_demo)] else []) :=
  C9_skip_usvg env_demo args_skip (by decide)

/-- Claim C10: `id_match` on an empty list always returns, and its result is
the list of pieces of the string split at every comma, less one final piece
when that piece is empty; interior and leading empty pieces are kept, and
no piece contains a comma. -/
theorem C10_id_match_split (s : Str) :
    id_match s [] = some (drop_final_empty (split_at_commas s)) ∧
    (∀ p ∈ drop_final_empty (split_at_commas s), ',' ∉ p) ∧
    id_match "a,,b".toList [] = some ["a".toList, [], "b".toList] ∧
    id_match ",".toList [] = some [[]] ∧
    id_match "a,,".toList [] = some ["a".toList, []] ∧
    id_match [] [] = some [] := by
  refine ⟨id_match_eq s, ?_, by decide, by decide, by decide, by decide⟩
  intro p hp
  exact split_at_commas_no_comma s p (drop_final_empty_subset _ p hp)

/-- Witness of `C10_id_match_split`: the string `x,y,`. -/
theorem C10_id_match_split_witness :
    id_match "x,y,".toList [] = some (drop_final_empty (split_at_commas "x,y,".toList)) ∧
    ',' ∉ "x".toList :=
  ⟨(C10_id_match_split "x,y,".toList).1,
    (C10_id_match_split "x,y,".toList).2.1 "x".toList (by decide)⟩

end Gerbolyze
